import Mathlib

/-!
Verification development for the Job-Agent browser-automation core.

The Python/JS sources under `src/browser/` are shallowly embedded below:
pure computations are translated directly; browser I/O (Playwright calls,
`page.evaluate`, sleeping) is abstracted into explicit environment records
whose operations return `Except String _`, matching the `try/except`
structure of the source.  Machine integers are modelled with `Nat`/`Int`
(Python integers are unbounded), and the few float-valued durations with `ℚ`.
-/

namespace JobAgent

/-! ### Python string helpers

`str.strip()` and `str.split(None, 2)` from `execute_action_sequence`
(playwright_tools.py lines 807-905) are modelled on character lists. -/

/-- Whitespace characters recognised by Python `str.strip()` / `str.split()`
(ASCII subset; the sources only ever produce ASCII command text). -/
def isSpace (c : Char) : Bool :=
  c = ' ' || c = '\t' || c = '\n' || c = '\r' || c = '\x0b' || c = '\x0c'

/-- `str.strip()` on a character list: drop leading and trailing whitespace. -/
def stripChars (cs : List Char) : List Char :=
  ((cs.dropWhile isSpace).reverse.dropWhile isSpace).reverse

/-- Python `s.strip()`. -/
def pyStrip (s : String) : String :=
  ⟨stripChars s.data⟩

/-- ASCII lowercasing, as applied by Python `str.lower()` and JS
`toLowerCase()` to the command verbs, tag names and class names the sources
compare (all ASCII). -/
def lowerChar (c : Char) : Char :=
  if 'A' ≤ c ∧ c ≤ 'Z' then Char.ofNat (c.toNat + 32) else c

def strLower (s : String) : String :=
  ⟨s.data.map lowerChar⟩

/-- Python `s.startswith(pre)`. -/
def strStartsWith (s pre : String) : Bool :=
  pre.data.isPrefixOf s.data

/-- Python `s[:n]` / JS `substring(0, n)`. -/
def strTake (s : String) (n : Nat) : String :=
  ⟨s.data.take n⟩

/-- Splitting step once a first non-whitespace character is known: take the
first token, then the second, then the whitespace-stripped remainder. -/
def splitCons (cs0 : List Char) : List String :=
  let t1 := cs0.takeWhile (fun c => !isSpace c)
  match (cs0.dropWhile (fun c => !isSpace c)).dropWhile isSpace with
  | [] => [⟨t1⟩]
  | d :: ds =>
    let t2 := (d :: ds).takeWhile (fun c => !isSpace c)
    match ((d :: ds).dropWhile (fun c => !isSpace c)).dropWhile isSpace with
    | [] => [⟨t1⟩, ⟨t2⟩]
    | e :: es => [⟨t1⟩, ⟨t2⟩, ⟨e :: es⟩]

/-- Python `line.split(None, 2)`: split on whitespace runs into at most three
parts, the third keeping its internal spacing (source line 816). -/
def pySplitMax2 (s : String) : List String :=
  match s.data.dropWhile isSpace with
  | [] => []
  | c :: cs => splitCons (c :: cs)

/-! ### Newline join/split

Models `chr(10).join(lines)` and `output.split(chr(10))` (Python semantics:
splitting the empty string yields one empty chunk). -/

def joinNL : List (List Char) → List Char
  | [] => []
  | [l] => l
  | l :: ls => l ++ '\n' :: joinNL ls

def splitNL : List Char → List (List Char)
  | [] => [[]]
  | c :: cs =>
    match splitNL cs with
    | [] => [[]]
    | l :: ls => if c = '\n' then [] :: l :: ls else (c :: l) :: ls

def joinLines (lines : List String) : String :=
  ⟨joinNL (lines.map String.data)⟩

def pySplitLines (s : String) : List String :=
  (splitNL s.data).map (fun cs => (⟨cs⟩ : String))

/-! ### C1: coordinate auto-correction in `_click_at_impl`

playwright_tools.py lines 169-188.  The requested click ordinate `y` is an
`Int` (it may be negative); the viewport height `vh = window.innerHeight` is a
nonnegative integer, modelled as `Nat`.  Python `vh // 2` is `vh / 2` on
`Nat`. -/

/-- Scroll amount chosen by `_click_at_impl`: `y - (vh // 2)` whenever the
requested `y` is outside the viewport (`y < 0` or `y > vh`), no scroll
otherwise (source lines 172-184). -/
def clickScrollAmount (y : Int) (vh : Nat) : Option Int :=
  if y < 0 then some (y - ((vh / 2 : Nat) : Int))
  else if y > (vh : Int) then some (y - ((vh / 2 : Nat) : Int))
  else none

/-- The `y` ordinate actually clicked: after the optional scroll the local `y`
is recomputed as `y - scroll_amount`, and a final clamp into `[1, vh-1]` is
applied whenever the recomputed value is still outside `[0, vh]`
(source lines 177-188). -/
def clickCorrectedY (y : Int) (vh : Nat) : Int :=
  let y1 :=
    match clickScrollAmount y vh with
    | some a => y - a
    | none => y
  if ¬(0 ≤ y1 ∧ y1 ≤ (vh : Int)) then max 1 (min y1 ((vh : Int) - 1)) else y1

/-! ### Session manager (playwright_manager.py)

`BPage` models a Playwright `Page` handle: `oid` stands in for object
identity (each CDP connection owns distinct handle objects for the same
remote tab), `url` and `closed` for `page.url` / `page.is_closed()`, and
`title` for `page.title()`. -/

structure BPage where
  oid : Nat
  url : String
  closed : Bool
  title : String
deriving DecidableEq, Repr

/-- Thread-local manager state: the fields of `PlaywrightManager.__init__`
(lines 40-48).  `browser` holds the browsing contexts (each a page list) when
a Browser handle exists, `context` the single tracked context, `page` the
cached active-page handle, `playwright` whether a Playwright driver was
started. -/
structure ManagerState where
  playwright : Bool
  browser : Option (List (List BPage))
  context : Option (List BPage)
  page : Option BPage
  headless : Bool
  connectedViaCdp : Bool
  quietMode : Bool
deriving DecidableEq, Repr

/-- A freshly constructed `PlaywrightManager` (lines 40-48). -/
def initManager : ManagerState :=
  { playwright := false, browser := none, context := none, page := none,
    headless := false, connectedViaCdp := false, quietMode := false }

/-- `PlaywrightManager.get_all_pages` (lines 446-465): for CDP connections
flatten the pages of all browser contexts, otherwise use the tracked context,
otherwise the empty list. -/
def get_all_pages (s : ManagerState) : List BPage :=
  match s.browser, s.connectedViaCdp with
  | some ctxs, true => ctxs.flatten
  | _, _ =>
    match s.context with
    | some pages => pages
    | none => []

/-- `PlaywrightManager.get_page` (lines 362-392), given the process-wide
active-tab URL `globalUrl` (`_global_active_page_url`).  For CDP connections
with a drifted (or absent) local handle it rebinds `_page` to the first page
whose url equals the descriptor URL; the cached handle is kept when no page
matches.  Returns the possibly-updated state and the page handed back to the
caller (`None` when the final handle is closed or absent). -/
def get_page (globalUrl : String) (s : ManagerState) : Option BPage × ManagerState :=
  let s1 :=
    if s.connectedViaCdp && s.browser.isSome then
      if globalUrl != "" &&
          (match s.page with
           | none => true
           | some p => p.url != globalUrl) then
        match (get_all_pages s).find? (fun p => p.url == globalUrl) with
        | some p => { s with page := some p }
        | none => s
      else s
    else s
  match s1.page with
  | some p => if !p.closed then (some p, s1) else (none, s1)
  | none => (none, s1)

/-- `PlaywrightManager.set_page` (lines 395-420): store the new local handle
and, for CDP connections with a browser, publish `page.url` into the global
descriptor URL and a best-effort index into the global index.  Returns the
new manager state and the new (url, index) descriptor. -/
def set_page (p : BPage) (globalUrl : String) (globalIdx : Int) (s : ManagerState) :
    ManagerState × String × Int :=
  let s1 := { s with page := some p }
  if s.browser.isSome && s.connectedViaCdp then
    let allPages := (s.browser.getD []).flatten
    let idx :=
      match allPages.findIdx? (fun q => q == p) with
      | some i => (i : Int)
      | none => globalIdx
    (s1, p.url, idx)
  else (s1, globalUrl, globalIdx)

/-- Fallible cleanup operations abstracting the Playwright calls made by
`PlaywrightManager.close` (lines 508-540); each is wrapped in
`try/except: pass` by the source. -/
structure CloseEnv where
  contextClose : Except String Unit
  browserClose : Except String Unit
  playwrightStop : Except String Unit

/-- The state left behind by `close`: every handle cleared, CDP flag reset,
log-related fields untouched (lines 533-537). -/
def closedState (s : ManagerState) : ManagerState :=
  { s with
    page := none
    context := none
    browser := none
    playwright := false
    connectedViaCdp := false }

/-- `try: op() except Exception: pass` -/
def swallow (op : Except String Unit) : Except String Unit :=
  match op with
  | .ok _ => .ok ()
  | .error _ => .ok ()

/-- `PlaywrightManager.close` (lines 508-540).  Context and browser are only
closed when not connected via CDP; every external call is guarded by a
swallowing `try/except`, so the function itself never raises. -/
def close (env : CloseEnv) (s : ManagerState) : Except String ManagerState := do
  if !s.connectedViaCdp then
    let _ ← swallow (if s.context.isSome then env.contextClose else .ok ())
    let _ ← swallow (if s.browser.isSome then env.browserClose else .ok ())
  let _ ← swallow (if s.playwright then env.playwrightStop else .ok ())
  pure (closedState s)

/-- `_cleanup_all_managers` (lines 685-693): close every tracked manager,
ignoring errors, then clear the registry.  Returns the closed manager states
and the emptied registry. -/
def cleanup_all_managers (env : CloseEnv) (managers : List ManagerState) :
    List ManagerState × List ManagerState :=
  (managers.map (fun s => ((close env s).toOption).getD (closedState s)), [])

/-- `switch_to_tab` (playwright_tools.py lines 1003-1025).  Takes the raw
index, the shared descriptor (url, index) and the manager state; returns the
status message together with the resulting manager state and descriptor.
`dummyPage` is never returned to the caller: the guarded branch only indexes
within bounds. -/
def dummyPage : BPage := { oid := 0, url := "", closed := true, title := "" }

def switch_to_tab (index : Int) (globalUrl : String) (globalIdx : Int)
    (s : ManagerState) : String × ManagerState × String × Int :=
  let pages := get_all_pages s
  let n := pages.length
  let idx := if index < 0 then (n : Int) + index else index
  if idx < 0 ∨ idx ≥ (n : Int) then
    ("Invalid index. Available: 0-" ++ toString ((n : Int) - 1), s, globalUrl, globalIdx)
  else
    let target := pages.getD idx.toNat dummyPage
    if target.closed then
      ("Tab " ++ toString idx ++ " is closed", s, globalUrl, globalIdx)
    else
      let (s1, g1, i1) := set_page target globalUrl globalIdx s
      ("Switched to tab " ++ toString idx ++ ": " ++ target.title, s1, g1, i1)

/-! ### C7: `wait_seconds` (playwright_tools.py lines 117-125)

Durations are Python floats, modelled as rationals.  The result records the
sleep actually performed (if any) and the returned message. -/

/-- `wait_seconds`: rejects durations outside `[0, 30]` without sleeping;
otherwise sleeps for the requested duration.  Decimal rendering of the float
in the success message is abstracted by `toString` on `ℚ`. -/
def wait_seconds (duration : ℚ) : Option ℚ × String :=
  if duration < 0 ∨ duration > 30 then (none, "Duration must be 0-30 seconds")
  else (some duration, "Waited " ++ toString duration ++ "s")

/-- Sleep amount used by the batch `wait` command: `time.sleep(min(seconds, 10))`
(playwright_tools.py line 888). -/
def batchWaitSleep (seconds : ℚ) : ℚ := min seconds 10

/-! ### C3: `execute_action_sequence` (playwright_tools.py lines 772-908)

The per-command browser effects (and the Python numeric parsing of the
coordinate and duration arguments, which can raise `ValueError`) are
abstracted into an environment of fallible operations; the dispatch, guard
conditions, per-line `try/except` and status-line formats are taken from the
source. -/

/-- `KEY_MAP` (playwright_tools.py lines 23-32). -/
def KEY_MAP : List (String × String) :=
  [("ctrl", "Control"), ("control", "Control"),
   ("cmd", "Meta"), ("command", "Meta"), ("meta", "Meta"),
   ("alt", "Alt"), ("option", "Alt"), ("shift", "Shift"),
   ("enter", "Enter"), ("return", "Enter"), ("tab", "Tab"),
   ("delete", "Delete"), ("backspace", "Backspace"),
   ("escape", "Escape"), ("esc", "Escape"), ("space", " "),
   ("up", "ArrowUp"), ("down", "ArrowDown"),
   ("left", "ArrowLeft"), ("right", "ArrowRight")]

/-- `_map_key` (lines 66-68): `KEY_MAP.get(key.lower(), key)`. -/
def mapKey (key : String) : String :=
  ((KEY_MAP.find? (fun kv => kv.1 == strLower key)).map Prod.snd).getD key

/-- Environment of effectful operations used by `execute_action_sequence`.
Each returns `Except String _`; an `.error` models a raised exception
(including `ValueError` from `int(...)`/`float(...)` argument parsing, folded
into the operation taking the raw argument text). -/
structure BatchEnv where
  /-- `_click_at_impl(ref=...)` (line 825); its result string. -/
  clickRef : String → Except String String
  /-- `_form_input_impl(ref, value)` (line 831); its result string. -/
  fillRef : String → String → Except String String
  /-- Coordinate click (lines 835-866): parse "x,y", click, snapshot; the
  returned string is the `feedback` text of line 861-865. -/
  clickXY : String → Except String String
  /-- `type x,y text` (lines 868-878); the returned string is the message
  after "OK: " of line 878. -/
  typeXY : String → String → Except String String
  /-- `page.keyboard.press` (line 882). -/
  press : String → Except String Unit
  /-- `float(parts[1])` (line 887). -/
  parseFloat : String → Except String ℚ
  /-- `time.sleep` (line 888). -/
  sleep : ℚ → Except String Unit
  /-- `page.mouse.wheel(0, dy)` (lines 894-896). -/
  wheel : Int → Except String Unit

/-- Guard of each recognised command, in source order (lines 823-899); the
final `else` of the dispatcher is taken exactly when this is false. -/
def recognizedParts (parts : List String) : Bool :=
  let action := strLower (parts.getD 0 "")
  let p1 := parts.getD 1 ""
  (action == "click" && parts.length ≥ 2 && strStartsWith p1 "ref_") ||
  ((action == "fill" || action == "input" || action == "set") &&
      parts.length ≥ 3 && strStartsWith p1 "ref_") ||
  (action == "click" && parts.length ≥ 2) ||
  (action == "type" && parts.length ≥ 3) ||
  (action == "press" && parts.length ≥ 2) ||
  (action == "wait" && parts.length ≥ 2) ||
  (action == "scroll" && parts.length ≥ 2)

/-- Body of one dispatch iteration (the `try` block, lines 822-901), as the
success string or the raised exception. -/
def lineBody (env : BatchEnv) (action : String) (parts : List String)
    (line : String) : Except String String :=
  let p1 := parts.getD 1 ""
  let p2 := parts.getD 2 ""
  if action == "click" && parts.length ≥ 2 && strStartsWith p1 "ref_" then do
    let res ← env.clickRef p1
    pure ("OK: " ++ res)
  else if (action == "fill" || action == "input" || action == "set") &&
      parts.length ≥ 3 && strStartsWith p1 "ref_" then do
    let res ← env.fillRef p1 p2
    pure ("OK: " ++ res)
  else if action == "click" && parts.length ≥ 2 then do
    let feedback ← env.clickXY p1
    pure ("OK: " ++ feedback)
  else if action == "type" && parts.length ≥ 3 then do
    let msg ← env.typeXY p1 p2
    pure ("OK: " ++ msg)
  else if action == "press" && parts.length ≥ 2 then do
    let _ ← env.press (mapKey p1)
    pure ("OK: press " ++ p1)
  else if action == "wait" && parts.length ≥ 2 then do
    let seconds ← env.parseFloat p1
    let _ ← env.sleep (batchWaitSleep seconds)
    pure ("OK: wait " ++ toString seconds ++ "s")
  else if action == "scroll" && parts.length ≥ 2 then do
    let direction := strLower p1
    let _ ←
      (if direction == "down" then env.wheel 500
       else if direction == "up" then env.wheel (-500)
       else pure ())
    pure ("OK: scroll " ++ direction)
  else
    pure ("? unknown/invalid: " ++ line)

/-- The per-line `except` handler (lines 903-904). -/
def catchLine (action : String) (r : Except String String) : String :=
  match r with
  | .ok msg => msg
  | .error e => "✗ " ++ action ++ " error: " ++ e

/-- One loop iteration of `execute_action_sequence` (lines 815-904): empty
part lists are skipped (`continue`), every other line appends exactly one
status string. -/
def execParts (env : BatchEnv) (line : String) : List String → Option String
  | [] => none
  | p0 :: rest =>
    some (catchLine (strLower p0) (lineBody env (strLower p0) (p0 :: rest) line))

/-- Status line produced for one batch line. -/
def execLine (env : BatchEnv) (line : String) : Option String :=
  execParts env line (pySplitMax2 line)

/-- Total version of `execLine` (the `none` case is unreachable for the
non-blank lines the dispatcher iterates over). -/
def execLineStr (env : BatchEnv) (line : String) : String :=
  (execLine env line).getD ""

/-- Line preprocessing of the batch (line 813):
`[l.strip() for l in actions.strip().split(chr(10)) if l.strip()]`. -/
def parsedLines (actions : String) : List String :=
  ((pySplitLines (pyStrip actions)).map pyStrip).filter (fun l => l ≠ "")

/-- `execute_action_sequence`: one status line per non-blank input line, in
order (lines 813-906). -/
def execute_action_sequence (env : BatchEnv) (actions : String) : List String :=
  (parsedLines actions).filterMap (execLine env)

/-! ### C4: `extract_jobs` session accumulation (playwright_tools.py
lines 634-742)

The in-page evaluation result is the input `pageJobs` list (already limited
to 50 by the page script); the session dict `_extraction_session` is the
state.  `timestampName` stands for the timestamped file name computed on
first use. -/

structure Job where
  title : String
  id : Option String
deriving DecidableEq, Repr

/-- Dedup key (line 707): Python `j.get(\x27id\x27) or j[\x27title\x27]` —
the id when present and non-empty (a falsy empty string falls through),
otherwise the title. -/
def jobKey (j : Job) : String :=
  match j.id with
  | some s => if s = "" then j.title else s
  | none => j.title

structure ExtractionSession where
  filePath : Option String
  jobs : List Job
  pagesScraped : Nat
deriving DecidableEq, Repr

/-- `reset_extraction_session` / module-level initial value (lines 634, 745-748). -/
def reset_extraction_session : ExtractionSession :=
  { filePath := none, jobs := [], pagesScraped := 0 }

/-- One `extract_jobs` call (lines 690-713): early return when the page
yields no jobs; otherwise lazily initialise the session file, drop page jobs
whose dedup key is already present, append the rest.  Returns the new session
and the number of newly added records (`len(new_jobs)`). -/
def extract_jobs_step (timestampName : String) (pageJobs : List Job)
    (s : ExtractionSession) : ExtractionSession × Nat :=
  if pageJobs = [] then (s, 0)
  else
    let s1 :=
      if s.filePath = none then
        { filePath := some timestampName, jobs := [], pagesScraped := 0 }
      else s
    let existingIds := s1.jobs.map jobKey
    let newJobs := pageJobs.filter (fun j => !(existingIds.contains (jobKey j)))
    ({ s1 with
        jobs := s1.jobs ++ newJobs
        pagesScraped := s1.pagesScraped + 1 },
     newJobs.length)

/-- Occurrence of `pat` as a contiguous run inside `cs`. -/
def listContainsRun (pat : List Char) : List Char → Bool
  | [] => pat.isEmpty
  | c :: cs => pat.isPrefixOf (c :: cs) || listContainsRun pat cs

/-- JS `s.includes(pat)` (substring containment). -/
def strIncludes (s pat : String) : Bool :=
  listContainsRun pat.data s.data

/-- The "ref_N" token minted from the page-persistent `window.__refCounter`
(playwright_tools.py lines 237, 337, 522). -/
def refToken (n : Nat) : String :=
  "ref_" ++ toString n

/-- JS `Math.round(a + b / 2)` on exact rationals — the centroid formula of
the in-page scripts.  `Math.round q` is `⌊q + 1/2⌋`; here it is computed
directly on numerators and denominators as an integer floor division (the
divisor is positive), so the kernel can evaluate it.
`jsCenter_eq_round` below identifies it with `round (a + b / 2)`. -/
def jsCenter (a b : ℚ) : Int :=
  (2 * a.num * (b.den : ℤ) + b.num * (a.den : ℤ) + (a.den : ℤ) * (b.den : ℤ)) /
    (2 * (a.den : ℤ) * (b.den : ℤ))

/-! ### C5/C6: the `get_page_elements` scanner
(playwright_tools.py lines 433-595)

One `ScanEl` holds the attributes the in-page script reads from an element
matched by the selector list of line 496.  Computed-style visibility and the
bounding rectangle are browser state and appear as fields; attribute getters
follow JS truthiness (absent attributes are the empty string, except
`aria-expanded` where the script distinguishes `null` from a present empty
value, line 472). -/

structure ScanEl where
  /-- `el.tagName.toLowerCase()` (line 501). -/
  tag : String
  /-- `isVisible(el)` (lines 453-459), abstracting computed style and rect. -/
  visible : Bool
  left : ℚ
  top : ℚ
  width : ℚ
  height : ℚ
  ariaLabel : String
  textContent : String
  /-- `el.id` (empty when absent). -/
  idProp : String
  typeAttr : String
  placeholder : String
  valueProp : String
  ariaHasPopup : String
  ariaExpanded : Option String
  roleAttr : String
  className : String
  /-- `el.options[el.selectedIndex]?.text` for selects, "" when undefined. -/
  selectedOptionText : String
deriving DecidableEq, Repr

/-- Centroid x, `Math.round(rect.left + rect.width / 2)` (line 505). -/
def scanX (el : ScanEl) : Int := jsCenter el.left el.width

/-- Centroid y, `Math.round(rect.top + rect.height / 2)` (line 506). -/
def scanY (el : ScanEl) : Int := jsCenter el.top el.height

/-- `getText` (lines 461-463): aria-label or textContent, trimmed, first 60
chars. -/
def scanText (el : ScanEl) : String :=
  strTake (pyStrip (if el.ariaLabel != "" then el.ariaLabel else el.textContent)) 60

/-- `el.id || null` (line 516). -/
def scanDomId (el : ScanEl) : Option String :=
  if el.idProp == "" then none else some el.idProp

/-- The skip conditions of the scan loop, in source order (lines 499-519):
invisible, outside the viewport buffer, or empty text on a non-form tag. -/
def scanSkip (vw vh : Int) (el : ScanEl) : Bool :=
  !el.visible ||
  (scanY el < -100 || scanY el > vh + 100) ||
  (scanX el < -100 || scanX el > vw + 100) ||
  (scanText el == "" && !(el.tag == "input" || el.tag == "textarea" || el.tag == "select"))

/-- `isDropdown` (lines 466-488). -/
def isDropdownScan (el : ScanEl) : Bool :=
  (el.ariaHasPopup != "" && el.ariaHasPopup != "false") ||
  el.ariaExpanded.isSome ||
  (el.roleAttr == "combobox" || el.roleAttr == "listbox" ||
    el.roleAttr == "menu" || el.roleAttr == "menubutton") ||
  el.tag == "select" ||
  (strIncludes (strLower el.className) "dropdown" ||
    strIncludes (strLower el.className) "select" ||
    strIncludes (strLower el.className) "expand" ||
    strIncludes (strLower el.className) "toggle" ||
    strIncludes (strLower el.className) "filter" ||
    strIncludes (strLower el.className) "menu-trigger")

/-- `isExpanded` (lines 491-493). -/
def isExpandedScan (el : ScanEl) : Bool :=
  el.ariaExpanded == some "true"

/-- The map entry stored under the ref in the page script (line 529). -/
structure JsEntry where
  x : Int
  y : Int
  domId : Option String
  tag : String
  dropdownFlag : Bool
deriving DecidableEq, Repr

/-- The entry the Python side copies into `ELEMENT_MAP` (lines 569-575):
coords, dom id and tag, dropping the dropdown flag. -/
structure PyEntry where
  x : Int
  y : Int
  domId : Option String
  tag : String
deriving DecidableEq, Repr

def jsEntryOf (el : ScanEl) : JsEntry :=
  { x := scanX el, y := scanY el, domId := scanDomId el, tag := el.tag,
    dropdownFlag := isDropdownScan el }

def pyEntryOf (e : JsEntry) : PyEntry :=
  { x := e.x, y := e.y, domId := e.domId, tag := e.tag }

/-- `label` (lines 532-535): tag, then `#id` (first 25 chars), then
`[type]`. -/
def scanLabel (el : ScanEl) : String :=
  let l1 := el.tag
  let l2 := if el.idProp != "" then l1 ++ "#" ++ strTake el.idProp 25 else l1
  if el.typeAttr != "" then l2 ++ "[" ++ el.typeAttr ++ "]" else l2

/-- `dropdownMark` (lines 538-541). -/
def dropdownMark (el : ScanEl) : String :=
  if isDropdownScan el then
    (if isExpandedScan el then " [▼ OPEN]" else " [▼ dropdown]")
  else ""

/-- The output line pushed for the element minted as `ref_n`
(lines 543-561). -/
def scanLine (n : Nat) (el : ScanEl) : String :=
  let base := refToken n ++ ": (" ++ toString (scanX el) ++ "," ++
    toString (scanY el) ++ ") "
  if el.tag == "input" || el.tag == "textarea" then
    let info1 :=
      if el.placeholder != "" then
        "placeholder=\"" ++ strTake el.placeholder 30 ++ "\""
      else ""
    let info2 :=
      if el.valueProp != "" then
        (if info1 != "" then info1 ++ " " else info1) ++
          "value=\"" ++ strTake el.valueProp 30 ++ "\""
      else info1
    let info := if info2 == "" then "empty" else info2
    base ++ scanLabel el ++ ": [" ++ info ++ "]"
  else if el.tag == "select" then
    let selectedText :=
      if el.selectedOptionText != "" then el.selectedOptionText
      else "no selection"
    base ++ scanLabel el ++ " [▼ dropdown]: " ++
      (if scanText el != "" then scanText el else selectedText)
  else
    base ++ scanLabel el ++ dropdownMark el ++ ": " ++ scanText el

/-- The scan loop of `get_page_elements` (lines 498-562): walk the matched
elements in document order, mint `ref_(c+1), ref_(c+2), ...` from the
page-persistent counter for the non-skipped ones, collect one output line and
one map entry per minted element.  Returns the final counter, the output
lines and the in-page map. -/
def scanStep (vw vh : Int) (c : Nat) : List ScanEl → Nat × List String × List (Nat × JsEntry)
  | [] => (c, [], [])
  | el :: rest =>
    if scanSkip vw vh el then scanStep vw vh c rest
    else
      let n := c + 1
      let (cf, lines, m) := scanStep vw vh n rest
      (cf, scanLine n el :: lines, (n, jsEntryOf el) :: m)

/-- Number of elements the scan loop mints. -/
def scanCount (vw vh : Int) (els : List ScanEl) : Nat :=
  (els.filter (fun el => !scanSkip vw vh el)).length

/-- `get_page_elements` (lines 433-595): run the in-page scan, copy the whole
map into `ELEMENT_MAP`, and cap the returned text at 50 lines with a heading
and a remainder count when more were found.  Returns the final ref counter,
the text returned to the caller, and `ELEMENT_MAP`. -/
def get_page_elements (vw vh : Int) (c : Nat) (els : List ScanEl) :
    Nat × String × List (Nat × PyEntry) :=
  let scanned := scanStep vw vh c els
  let elementMap := scanned.2.2.map (fun kv => (kv.1, pyEntryOf kv.2))
  let output := joinLines scanned.2.1
  let formatted := pySplitLines output
  let count := formatted.length
  let text :=
    if count > 50 then
      joinLines
        (("Found " ++ toString count ++ " interactive elements. Showing top 50:")
          :: formatted.take 50
          ++ ["... and " ++ toString (count - 50) ++
                " more elements (buttons, links, inputs).",
              "TIP: Use execute_javascript to find specific elements not listed here."])
    else output
  (scanned.1, text, elementMap)

/-! ### C5: overlay enumeration after a click
(`_click_at_impl`, playwright_tools.py lines 190-275)

Each `OverlayEl` holds the attributes read by the popup-element loop of
lines 229-265; an `Overlay` is one element matched by the overlay selector
query, with its interactive descendants. -/

structure OverlayEl where
  /-- `el.offsetParent !== null`. -/
  offsetParent : Bool
  /-- Raw `el.textContent` (the script trims it, line 234). -/
  textContent : String
  /-- Raw `el.tagName` (uppercase for HTML elements). -/
  tagName : String
  /-- `el.type` ("" when absent). -/
  typeProp : String
  /-- `el.checked`. -/
  checkedProp : Bool
  ariaChecked : String
  ariaSelected : String
  /-- Checked state of a nested `input[type=checkbox]`, when one exists. -/
  nestedCheckbox : Option Bool
  roleAttr : String
  left : ℚ
  top : ℚ
  width : ℚ
  height : ℚ
deriving DecidableEq, Repr

structure Overlay where
  /-- `el.offsetParent !== null && rect.height > 0` (lines 193, 210). -/
  visible : Bool
  /-- Interactive descendants matched by the selector of line 231, in
  document order. -/
  els : List OverlayEl
deriving DecidableEq, Repr

/-- `isChecked` determination (lines 242-250). -/
def overlayChecked (el : OverlayEl) : Bool :=
  if el.tagName == "INPUT" && el.typeProp == "checkbox" then el.checkedProp
  else if el.ariaChecked == "true" || el.ariaSelected == "true" then true
  else
    match el.nestedCheckbox with
    | some b => b
    | none => false

/-- Skip conditions of the popup-element loop (lines 233-235): hidden
elements and elements whose trimmed text is empty or shorter than 2. -/
def qualifiesOverlayEl (el : OverlayEl) : Bool :=
  el.offsetParent &&
    !(pyStrip el.textContent == "" || (pyStrip el.textContent).length < 2)

/-- One reported popup element (lines 256-263).  The JS expression
`isChecked !== undefined ? \x27option\x27 : \x27link\x27` always yields
"option" for non-buttons because `isChecked` is initialised to `false`. -/
structure PopupEntry where
  ref : Nat
  text : String
  entryType : String
  checked : Bool
  x : Int
  y : Int
deriving DecidableEq, Repr

def popupEntryOf (n : Nat) (el : OverlayEl) : PopupEntry :=
  let text := pyStrip el.textContent
  let tag := strLower el.tagName
  let isButton := tag == "button" || el.roleAttr == "button"
  { ref := n, text := strTake text 50,
    entryType := if isButton then "button" else "option",
    checked := overlayChecked el,
    x := jsCenter el.left el.width,
    y := jsCenter el.top el.height }

/-- Mint popup entries for the qualifying descendants of one overlay, from
counter `c` (the loop of lines 232-264). -/
def mintEls (c : Nat) : List OverlayEl → Nat × List PopupEntry
  | [] => (c, [])
  | el :: rest =>
    if qualifiesOverlayEl el then
      let n := c + 1
      let (cf, es) := mintEls n rest
      (cf, popupEntryOf n el :: es)
    else mintEls c rest

def mintElsCount (els : List OverlayEl) : Nat :=
  (els.filter qualifiesOverlayEl).length

/-- The outer loop over all visible overlays (line 229). -/
def mintOverlays (c : Nat) : List Overlay → Nat × List PopupEntry
  | [] => (c, [])
  | o :: os =>
    let r1 := mintEls c o.els
    let r2 := mintOverlays r1.1 os
    (r2.1, r1.2 ++ r2.2)

def mintOverlaysCount (os : List Overlay) : Nat :=
  (os.map (fun o => mintElsCount o.els)).sum

/-- `overlayCount` of a snapshot: the visible overlay matches
(lines 192-193, 209-210). -/
def overlayCountOf (os : List Overlay) : Nat :=
  (os.filter (fun o => o.visible)).length

/-- `overlay_diff = after.overlayCount - before.overlayCount` (line 305). -/
def clickOverlayDiff (before after : List Overlay) : Int :=
  (overlayCountOf after : Int) - (overlayCountOf before : Int)

/-- The popup enumeration of the after-snapshot: mint refs for all
qualifying descendants of every visible overlay, report the first 20 entries
(line 273). -/
def popupEnumerate (c : Nat) (after : List Overlay) : Nat × List PopupEntry :=
  let r := mintOverlays c (after.filter (fun o => o.visible))
  (r.1, r.2.take 20)

/-! ### C8 (and the legacy scanner of C5): `scan_page_elements`
(accessibility_scanner.py lines 17-170)

The in-page `build` recursion over the element tree.  Text-node content
(`getDirectText`, already whitespace-normalised) and computed-style facts
(visibility, scrollability) are carried as fields of each node. -/

structure NodeData where
  /-- Raw `tagName`; the script lowercases it (line 93). -/
  tagName : String
  /-- `isVisible(node)` (lines 31-39), abstracting computed style and rect. -/
  visible : Bool
  /-- `getDirectText(node)` (lines 41-47), already normalised. -/
  directText : String
  /-- `getAttribute(\x27aria-label\x27) || \x27\x27` (line 104). -/
  ariaLabelAttr : String
  /-- `getAttribute(\x27role\x27) || \x27\x27` (line 105). -/
  roleAttr : String
  /-- class attribute / `className` ("" when absent). -/
  classAttr : String
  idAttr : String
  hrefAttr : String
  typeAttr : String
  placeholderAttr : String
  /-- computed `overflowY` is `auto` or `scroll` (line 81). -/
  overflowScroll : Bool
  left : ℚ
  top : ℚ
  width : ℚ
  height : ℚ
deriving DecidableEq, Repr

inductive DomNode where
  | mk (data : NodeData) (children : List DomNode)
deriving Repr

def DomNode.data : DomNode → NodeData
  | .mk d _ => d

def DomNode.children : DomNode → List DomNode
  | .mk _ cs => cs

/-- One step of the exclusion test (lines 49-63): footer/contentinfo,
pagination nav, related-content containers. -/
def excludedOne (d : NodeData) : Bool :=
  let tag := strLower d.tagName
  let cls := strLower d.classAttr
  tag == "footer" || d.roleAttr == "contentinfo" ||
  (tag == "nav" && strIncludes cls "pagination") ||
  strIncludes cls "relatedqueries" || strIncludes cls "recommendations"

/-- `isExcluded(node)`: the node and up to 9 ancestors are tested
(lines 50-60; `anc` lists ancestors nearest first). -/
def isExcluded (d : NodeData) (anc : List NodeData) : Bool :=
  ((d :: anc).take 10).any excludedOne

/-- Tags rejected outright (line 94). -/
def rejectedTag (d : NodeData) : Bool :=
  let tag := strLower d.tagName
  tag == "svg" || tag == "path" || tag == "script" || tag == "style" ||
  tag == "noscript" || tag == "iframe" || tag == "img"

/-- `isInteresting` (lines 66-87). -/
def isInteresting (d : NodeData) : Bool :=
  let tag := strLower d.tagName
  (tag == "a" || tag == "button" || tag == "input" || tag == "select" ||
    tag == "textarea") ||
  (d.roleAttr == "button" || d.roleAttr == "link" || d.roleAttr == "textbox" ||
    d.roleAttr == "combobox" || d.roleAttr == "searchbox" ||
    d.roleAttr == "checkbox" || d.roleAttr == "radio" || d.roleAttr == "tab") ||
  (tag == "h1" || tag == "h2" || tag == "h3") ||
  (tag == "form" || tag == "fieldset" || tag == "legend") ||
  d.overflowScroll ||
  ((tag == "div" || tag == "span") &&
    (d.ariaLabelAttr != "" || (d.directText != "" && d.directText.length > 2)))

/-- A node produces an output line and a map entry exactly when it is
visible and interesting (line 107). -/
def emitWorthy (d : NodeData) : Bool :=
  d.visible && isInteresting d

def accX (d : NodeData) : Int := jsCenter d.left d.width

def accY (d : NodeData) : Int := jsCenter d.top d.height

/-- Map entry kept per element id, as copied into the Python `ELEMENT_MAP`
(lines 110, 160-168). -/
structure AccEntry where
  x : Int
  y : Int
  domId : Option String
  tag : String
deriving DecidableEq, Repr

def accEntryOf (d : NodeData) : AccEntry :=
  { x := accX d, y := accY d,
    domId := if d.idAttr == "" then none else some d.idAttr,
    tag := strLower d.tagName }

/-- The attribute string of an output line (lines 115-131). -/
def accAttrs (d : NodeData) : String :=
  let attrs : List String :=
    (if d.ariaLabelAttr != "" then ["aria-label=\x27" ++ d.ariaLabelAttr ++ "\x27"] else []) ++
    (if d.roleAttr != "" then ["role=\x27" ++ d.roleAttr ++ "\x27"] else []) ++
    (if d.classAttr != "" then ["class=\x27" ++ d.classAttr ++ "\x27"] else []) ++
    (if d.idAttr != "" then ["id=\x27" ++ d.idAttr ++ "\x27"] else []) ++
    (if d.hrefAttr != "" then ["href=\x27" ++ d.hrefAttr ++ "\x27"] else []) ++
    (if strLower d.tagName == "input" then
      (if d.typeAttr != "" then ["type=\x27" ++ d.typeAttr ++ "\x27"] else []) ++
      (if d.placeholderAttr != "" then ["placeholder=\x27" ++ d.placeholderAttr ++ "\x27"] else [])
    else [])
  if attrs.length > 0 then " " ++ String.intercalate " " attrs else ""

/-- `"\t".repeat(depth)` (line 112). -/
def tabs (n : Nat) : String :=
  ⟨List.replicate n '\t'⟩

/-- The line pushed for an emitted node with id `counter` at `depth`
(lines 134-137): short direct text is shown inline. -/
def accNodeLine (counter : Nat) (depth : Nat) (d : NodeData) : String :=
  tabs depth ++ "[" ++ toString counter ++ "] (" ++ toString (accX d) ++ "," ++
    toString (accY d) ++ ")<" ++ strLower d.tagName ++ accAttrs d ++
    (if d.directText != "" && d.directText.length < 50 then
      ">" ++ d.directText ++ " />"
    else " />")

/-- The unindented continuation line for long direct text
(lines 138-140). -/
def accTextLines (d : NodeData) : List String :=
  if d.directText != "" && d.directText.length < 50 then []
  else if d.directText != "" && d.directText.length ≥ 50 then
    [if d.directText.length > 200 then strTake d.directText 197 ++ "..."
     else d.directText]
  else []

/-- Mutable scan state of the in-page script: the element counter (the JS
`counter` starts at `-1` and is pre-incremented, so ids are `0, 1, ...` and
`counter` here counts entries made so far), the output lines and the map. -/
structure BuildSt where
  counter : Nat
  lines : List String
  map : List (Nat × AccEntry)
deriving DecidableEq, Repr

def initBuildSt : BuildSt :=
  { counter := 0, lines := [], map := [] }

mutual

/-- `build(node, depth)` (lines 89-150): prune excluded subtrees and
rejected tags; emit visible interesting nodes; recurse into the children
with depth increased exactly when the (emitted) parent has more than one
element child (line 144). -/
def buildNode : DomNode → List NodeData → Nat → BuildSt → BuildSt
  | .mk d cs, anc, depth, st =>
    if isExcluded d anc then st
    else if rejectedTag d then st
    else if emitWorthy d then
      let n := st.counter
      let st1 : BuildSt :=
        { counter := n + 1
          lines := st.lines ++ accNodeLine n depth d :: accTextLines d
          map := st.map ++ [(n, accEntryOf d)] }
      let nextDepth := if cs.length > 1 then depth + 1 else depth
      buildList cs (d :: anc) nextDepth st1
    else
      buildList cs (d :: anc) depth st

def buildList : List DomNode → List NodeData → Nat → BuildSt → BuildSt
  | [], _, _, st => st
  | c :: cs, anc, depth, st => buildList cs anc depth (buildNode c anc depth st)

end

/-- `scan_page_elements(page)` (accessibility_scanner.py lines 17-170): the
script walks `document.body` at depth 0 with a fresh counter and empty
output and map on every call; `ELEMENT_MAP` is cleared and refilled from the
returned map.  Returns the output lines and `ELEMENT_MAP`. -/
def scan_page_elements (body : DomNode) : List String × List (Nat × AccEntry) :=
  let st := buildNode body [] 0 initBuildSt
  (st.lines, st.map)

/-- Element ids minted by one `scan_page_elements` call. -/
def scanPageIds (body : DomNode) : List Nat :=
  (scan_page_elements body).2.map Prod.fst

/-- Nested single-child chain of nodes, used to express the compact
rendering of single-child chains. -/
def chainTree (d : NodeData) : List NodeData → DomNode
  | [] => .mk d []
  | d2 :: rest => .mk d [chainTree d2 rest]

/-- Number of leading tab characters of a line. -/
def tabCount (s : String) : Nat :=
  (s.data.takeWhile (fun c => c = '\t')).length

/-- A single-child chain `d :: ds` under ancestors `anc` is scan-friendly:
no node is excluded or tag-rejected, every node is emitted, and direct text
stays short so no unindented continuation lines appear. -/
def chainOK : List NodeData → NodeData → List NodeData → Bool
  | anc, d, ds =>
    !isExcluded d anc && !rejectedTag d && emitWorthy d &&
      decide (d.directText.length < 50) &&
      (match ds with
       | [] => true
       | d2 :: rest => chainOK (d :: anc) d2 rest)

/-! ### Concrete instances used by the witnesses and counterexamples -/

/-- Two tabs as seen by one CDP connection. -/
def pA : BPage := { oid := 1, url := "https://a", closed := false, title := "A" }

def pB : BPage := { oid := 2, url := "https://b", closed := false, title := "B" }

/-- A CDP-connected manager caching `pB` as its local active-page handle. -/
def sB : ManagerState :=
  { playwright := true, browser := some [[pA, pB]], context := some [pA, pB],
    page := some pB, headless := false, connectedViaCdp := true,
    quietMode := false }

/-- Thread A handles for the two remote tabs. -/
def wpA : BPage := { oid := 1, url := "https://a", closed := false, title := "A" }

def wpB : BPage := { oid := 2, url := "https://b", closed := false, title := "B" }

/-- Thread B handles for the same two remote tabs: same urls, different
handle objects. -/
def wqA : BPage := { oid := 11, url := "https://a", closed := false, title := "A" }

def wqB : BPage := { oid := 12, url := "https://b", closed := false, title := "B" }

def wsA : ManagerState :=
  { playwright := true, browser := some [[wpA, wpB]], context := some [wpA, wpB],
    page := some wpA, headless := false, connectedViaCdp := true,
    quietMode := false }

def wsB : ManagerState :=
  { playwright := true, browser := some [[wqA, wqB]], context := some [wqA, wqB],
    page := some wqA, headless := false, connectedViaCdp := true,
    quietMode := false }

/-- Batch environment for the C3 and C7 instances: `ref_999` does not
resolve, every other operation succeeds; `sleep` only accepts exactly 10
seconds, so a successful `wait 60` line proves the slept amount was
`min(60, 10)`. -/
def envW : BatchEnv :=
  { clickRef := fun r =>
      if r == "ref_999" then .error "Element not found" else .ok ("Clicked " ++ r)
    fillRef := fun r v => .ok ("Set " ++ r ++ " to " ++ v)
    clickXY := fun s => .ok ("click (" ++ s ++ ")")
    typeXY := fun s t => .ok ("type " ++ t ++ " at " ++ s)
    press := fun _ => .ok ()
    parseFloat := fun s =>
      if s == "3" then .ok 3 else if s == "60" then .ok 60 else .error "ValueError"
    sleep := fun q => if q ≤ 10 then .ok () else .error "sleep longer than 10s"
    wheel := fun _ => .ok () }

/-- The five-line batch of the C3 scenario: line 3 names a non-existent
ref. -/
def batchW : String :=
  "click ref_1\nfill ref_2 AI intern\nclick ref_999\npress Enter\nwait 3"

/-- One scanned element for the C5 and C6 instances. -/
def scanElA : ScanEl :=
  { tag := "a", visible := true, left := 0, top := 0, width := 20, height := 20,
    ariaLabel := "", textContent := "Home page", idProp := "", typeAttr := "",
    placeholder := "", valueProp := "", ariaHasPopup := "", ariaExpanded := none,
    roleAttr := "", className := "", selectedOptionText := "" }

/-- 51 buttons, enough to trigger the 50-entry output cap. -/
def c6els : List ScanEl :=
  List.replicate 51 { scanElA with tag := "button", textContent := "Go" }

/-- An overlay button with the given label. -/
def ovEl (t : String) : OverlayEl :=
  { offsetParent := true, textContent := t, tagName := "BUTTON", typeProp := "",
    checkedProp := false, ariaChecked := "", ariaSelected := "",
    nestedCheckbox := none, roleAttr := "", left := 0, top := 0, width := 10,
    height := 10 }

/-- A dialog with three interactive children. -/
def dlgW : Overlay := { visible := true, els := [ovEl "Yes", ovEl "No", ovEl "Cancel"] }

/-- Template div node for the accessibility-scanner instances. -/
def ndDiv (txt : String) (vis : Bool) : NodeData :=
  { tagName := "DIV", visible := vis, directText := txt, ariaLabelAttr := "",
    roleAttr := "", classAttr := "", idAttr := "", hrefAttr := "", typeAttr := "",
    placeholderAttr := "", overflowScroll := false, left := 0, top := 0,
    width := 10, height := 10 }

def ndBody : NodeData := { ndDiv "" true with tagName := "BODY" }

/-- Parent with two element children of which exactly one is interesting. -/
def c8P : DomNode :=
  .mk (ndDiv "menu" true) [.mk (ndDiv "Hello" true) [], .mk (ndDiv "" false) []]

def c8body : DomNode := .mk ndBody [c8P]

/-- A page whose body has a single interesting element, for the restarting
counter of the legacy scanner. -/
def cexBody : DomNode := .mk ndBody [.mk (ndDiv "Search" true) []]

/-- Two successive `scan_page_elements` calls on an unchanged page: the
script reinitialises `counter = -1` (accessibility_scanner.py line 29) and
`ELEMENT_MAP` is cleared (line 23), so no state flows from the first call
into the second. -/
def scanTwice (body : DomNode) : List Nat × List Nat :=
  (scanPageIds body, scanPageIds body)

/-- Single-child chain node data for the C8 witness. -/
def chA : NodeData := ndDiv "aaa" true

def chB : NodeData := ndDiv "bbb" true

def chC : NodeData := ndDiv "ccc" true

/-! ## Theorems -/

/-- `jsCenter` really is JS `Math.round(a + b / 2)`: rounding half away from
zero agrees with `⌊q + 1/2⌋` (`round_eq`), and the integer-division form
computes that floor. -/
theorem jsCenter_eq_round (a b : ℚ) : jsCenter a b = round (a + b / 2) := by
  rw [round_eq]
  unfold jsCenter
  have hda : ((a.den : ℚ)) ≠ 0 := by exact_mod_cast a.den_nz
  have hdb : ((b.den : ℚ)) ≠ 0 := by exact_mod_cast b.den_nz
  have hval : a + b / 2 + 1 / 2 =
      ((2 * a.num * (b.den : ℤ) + b.num * (a.den : ℤ) +
        (a.den : ℤ) * (b.den : ℤ) : ℤ) : ℚ) /
      ((2 * a.den * b.den : ℕ) : ℚ) := by
    conv_lhs =>
      rw [show (a : ℚ) = (a.num : ℚ) / (a.den : ℚ) from (Rat.num_div_den a).symm]
      rw [show (b : ℚ) = (b.num : ℚ) / (b.den : ℚ) from (Rat.num_div_den b).symm]
    push_cast
    field_simp
    ring
  rw [hval, Rat.floor_intCast_div_natCast]
  norm_cast

/-- C1: for every click with viewport height `vh` (at least 2, so that the
target interval `[1, vh-1]` is inhabited), a requested `y` outside the
viewport makes the engine scroll by `y - vh/2`, and the recomputed `y`
actually clicked equals `vh/2`, always inside `[1, vh-1]` (the final clamp is
only a last resort and never has to fire here). -/
theorem claim_C1 (y : Int) (vh : Nat) (hvh : 2 ≤ vh)
    (hout : y < 0 ∨ (vh : Int) < y) :
    clickScrollAmount y vh = some (y - ((vh / 2 : Nat) : Int)) ∧
    clickCorrectedY y vh = ((vh / 2 : Nat) : Int) ∧
    1 ≤ clickCorrectedY y vh ∧ clickCorrectedY y vh ≤ (vh : Int) - 1 := by
  have h1 : clickScrollAmount y vh = some (y - ((vh / 2 : Nat) : Int)) := by
    unfold clickScrollAmount
    rcases hout with h | h
    · rw [if_pos h]
    · rw [if_neg (by omega), if_pos (by omega)]
  have hle : ((vh / 2 : Nat) : Int) ≤ (vh : Int) := by
    exact_mod_cast Nat.div_le_self vh 2
  have hge : (0 : Int) ≤ ((vh / 2 : Nat) : Int) := by positivity
  have h2 : clickCorrectedY y vh = ((vh / 2 : Nat) : Int) := by
    unfold clickCorrectedY
    rw [h1]
    have e : y - (y - ((vh / 2 : Nat) : Int)) = ((vh / 2 : Nat) : Int) := by ring
    simp only [e]
    rw [if_neg (not_not_intro ⟨hge, hle⟩)]
  refine ⟨h1, h2, ?_, ?_⟩ <;> rw [h2] <;> omega

/-- C1 witness: viewport height 800, requested y = -50: the engine scrolls by
-450 and clicks at y = 400 ∈ [1, 799]. -/
theorem claim_C1_witness :
    clickScrollAmount (-50) 800 = some (-450) ∧
    clickCorrectedY (-50) 800 = 400 ∧
    1 ≤ clickCorrectedY (-50) 800 ∧ clickCorrectedY (-50) 800 ≤ 799 := by
  have h := claim_C1 (-50) 800 (by norm_num) (Or.inl (by norm_num))
  exact ⟨h.1.trans (by decide), h.2.1.trans (by decide), h.2.2.1, h.2.2.2⟩

/-- The session file is set after any call that saw jobs. -/
theorem extract_step_filePath (ts : String) (pageJobs : List Job)
    (s : ExtractionSession) (hp : pageJobs ≠ []) :
    (extract_jobs_step ts pageJobs s).1.filePath ≠ none := by
  unfold extract_jobs_step
  rw [if_neg hp]
  split
  · simp
  · next h => simpa using h

/-- Every page job key is present in the session produced by a call on that
page. -/
theorem extract_step_covers (ts : String) (pageJobs : List Job)
    (s : ExtractionSession) :
    ∀ j ∈ pageJobs, jobKey j ∈ ((extract_jobs_step ts pageJobs s).1).jobs.map jobKey := by
  intro j hj
  have hp : pageJobs ≠ [] := by
    intro h
    rw [h] at hj
    exact (List.not_mem_nil j) hj
  unfold extract_jobs_step
  rw [if_neg hp]
  set s1 := if s.filePath = none then
      ({ filePath := some ts, jobs := [], pagesScraped := 0 } : ExtractionSession)
    else s with hs1
  simp only [List.map_append, List.mem_append]
  by_cases hc : (s1.jobs.map jobKey).contains (jobKey j)
  · left
    simpa using hc
  · right
    refine List.mem_map_of_mem jobKey ?_
    refine List.mem_filter.mpr ⟨hj, ?_⟩
    have hc2 : ((s1.jobs.map jobKey).contains (jobKey j)) = false :=
      Bool.eq_false_iff.mpr hc
    simp only [hc2, Bool.not_false]

/-- A repeated call never adds a job whose key the session already has. -/
theorem extract_step_no_new (ts : String) (pageJobs : List Job)
    (s : ExtractionSession) (hfp : s.filePath ≠ none)
    (hsub : ∀ j ∈ pageJobs, jobKey j ∈ s.jobs.map jobKey) :
    (extract_jobs_step ts pageJobs s).2 = 0 := by
  unfold extract_jobs_step
  by_cases hp : pageJobs = []
  · simp [hp]
  · rw [if_neg hp]
    simp only [if_neg hfp]
    rw [List.length_eq_zero, List.filter_eq_nil_iff]
    intro j hj
    have := hsub j hj
    simp [this]

/-- C4: extraction is idempotent on an unchanged page: a second
`extract_jobs` call seeing the same page jobs adds zero new records, because
records are deduplicated by the site id when present and by the title text
otherwise. -/
theorem claim_C4 (ts1 ts2 : String) (pageJobs : List Job)
    (s : ExtractionSession) :
    (extract_jobs_step ts2 pageJobs (extract_jobs_step ts1 pageJobs s).1).2 = 0 := by
  by_cases hp : pageJobs = []
  · simp [extract_jobs_step, hp]
  · exact extract_step_no_new ts2 pageJobs _
      (extract_step_filePath ts1 pageJobs s hp)
      (extract_step_covers ts1 pageJobs s)

theorem swallow_ok (op : Except String Unit) : swallow op = .ok () := by
  cases op <;> rfl

/-- C9: `close` never raises (every fallible call sits under a swallowing
`try/except`), works on a freshly constructed manager that never connected,
and is idempotent: a second `close` (under any environment) leaves exactly
the state of the first, with all handles cleared. -/
theorem claim_C9 (env env2 : CloseEnv) (s : ManagerState)
    (managers : List ManagerState) :
    close env s = .ok (closedState s) ∧
    close env initManager = .ok (closedState initManager) ∧
    close env2 (closedState s) = .ok (closedState s) ∧
    (cleanup_all_managers env managers).2 = [] ∧
    cleanup_all_managers env2 (cleanup_all_managers env managers).2 = ([], []) := by
  have hclose : ∀ (e : CloseEnv) (t : ManagerState), close e t = .ok (closedState t) := by
    intro e t
    unfold close
    rcases hc : t.connectedViaCdp <;>
      simp only [hc, swallow_ok, Bool.not_true, Bool.not_false] <;> rfl
  have hidem : closedState (closedState s) = closedState s := rfl
  refine ⟨hclose env s, hclose env initManager, ?_, rfl, rfl⟩
  rw [hclose env2 (closedState s), hidem]

/-- C10: `switch_to_tab` treats a negative index as an offset from the end of
the tab list (so index -1 addresses the last open tab), and for any index
that is still out of range after this adjustment it returns the invalid-index
message and leaves the manager state and the global active-tab descriptor
unchanged. -/
theorem claim_C10 (index : Int) (g : String) (gi : Int) (s : ManagerState) :
    (((if index < 0 then ((get_all_pages s).length : Int) + index else index) < 0 ∨
        (if index < 0 then ((get_all_pages s).length : Int) + index else index) ≥
          ((get_all_pages s).length : Int)) →
      switch_to_tab index g gi s =
        ("Invalid index. Available: 0-" ++
          toString (((get_all_pages s).length : Int) - 1), s, g, gi)) ∧
    (∀ hne : get_all_pages s ≠ [], index = -1 →
      switch_to_tab index g gi s =
        (if ((get_all_pages s).getLast hne).closed then
          ("Tab " ++ toString (((get_all_pages s).length : Int) - 1) ++
            " is closed", s, g, gi)
        else
          ("Switched to tab " ++ toString (((get_all_pages s).length : Int) - 1) ++
            ": " ++ ((get_all_pages s).getLast hne).title,
           set_page ((get_all_pages s).getLast hne) g gi s))) := by
  constructor
  · intro hout
    unfold switch_to_tab
    rw [if_pos hout]
  · intro hne hidx
    subst hidx
    unfold switch_to_tab
    dsimp only
    have hn : 0 < (get_all_pages s).length := List.length_pos.mpr hne
    have hadj : (if (-1 : Int) < 0 then ((get_all_pages s).length : Int) + (-1)
        else (-1 : Int)) = ((get_all_pages s).length : Int) - 1 := by
      rw [if_pos (by norm_num)]
      ring
    rw [hadj]
    rw [if_neg (by omega)]
    have htgt : (get_all_pages s).getD (((get_all_pages s).length : Int) - 1).toNat
        dummyPage = (get_all_pages s).getLast hne := by
      have hlt : (((get_all_pages s).length : Int) - 1).toNat <
          (get_all_pages s).length := by omega
      rw [List.getD_eq_getElem (get_all_pages s) dummyPage hlt,
        List.getLast_eq_getElem (get_all_pages s) hne]
      congr 1
      omega
    rw [htgt]

/-- C10 witness: with two open tabs, index 5 is rejected without touching the
state or descriptor, and index -1 switches to the last tab. -/
theorem claim_C10_witness :
    switch_to_tab 5 "g" 0 sB = ("Invalid index. Available: 0-1", sB, "g", 0) ∧
    switch_to_tab (-1) "g" 0 sB =
      ("Switched to tab 1: B", set_page pB "g" 0 sB) := by
  constructor
  · exact ((claim_C10 5 "g" 0 sB).1 (by decide)).trans (by decide)
  · exact ((claim_C10 (-1) "g" 0 sB).2 (by decide) rfl).trans (by decide)

/-- C2 counterexample: the descriptor URL "https://c" matches no open page;
`get_page` then keeps the cached handle `pB` instead of falling back to the
first open tab `pA`, refuting the claimed first-tab fallback. -/
theorem claim_C2_counterexample :
    (∀ q ∈ get_all_pages sB, q.url ≠ "https://c") ∧
    (get_all_pages sB).head? = some pA ∧
    (get_page "https://c" sB).1 = some pB ∧
    (get_page "https://c" sB).1 ≠ some pA := by
  refine ⟨by decide, by decide, by decide, by decide⟩

/-- C2 (amended): after `set_page p` publishes the url of `p` in the global
descriptor, a `get_page` by another CDP-connected thread whose local handle
is absent or has a different url resolves to the first page (in context
order) whose url equals the descriptor url, provided it is open; when no
page matches the descriptor url, `get_page` keeps the previously cached
handle (returning it if still open, `None` otherwise) instead of falling
back to the first open tab. -/
theorem claim_C2 (p : BPage) (g0 : String) (i0 : Int) (sA sB2 : ManagerState)
    (hA1 : sA.browser.isSome = true) (hA2 : sA.connectedViaCdp = true)
    (hB1 : sB2.connectedViaCdp = true) (hB2 : sB2.browser.isSome = true)
    (hurl : p.url ≠ "")
    (hdrift : ∀ c, sB2.page = some c → c.url ≠ p.url) :
    (set_page p g0 i0 sA).2.1 = p.url ∧
    (get_page ((set_page p g0 i0 sA).2.1) sB2).1 =
      (match (get_all_pages sB2).find? (fun q => q.url == p.url) with
       | some q => if !q.closed then some q else none
       | none =>
         match sB2.page with
         | some c => if !c.closed then some c else none
         | none => none) := by
  have hset : (set_page p g0 i0 sA).2.1 = p.url := by
    unfold set_page
    rw [if_pos (by rw [hA1, hA2]; rfl)]
  refine ⟨hset, ?_⟩
  rw [hset]
  unfold get_page
  rw [if_pos (by rw [hB1, hB2]; rfl)]
  have hcond : (p.url != "" &&
      (match sB2.page with
       | none => true
       | some q => q.url != p.url)) = true := by
    rw [Bool.and_eq_true]
    constructor
    · exact bne_iff_ne.mpr hurl
    · cases hp : sB2.page with
      | none => rfl
      | some c => exact bne_iff_ne.mpr (hdrift c hp)
  rw [if_pos hcond]
  cases hfind : (get_all_pages sB2).find? (fun q => q.url == p.url) with
  | some q =>
    by_cases hq : q.closed = false <;> simp [hq]
  | none =>
    cases hp : sB2.page with
    | none => simp [hp]
    | some c =>
      by_cases hc2 : c.closed = false <;> simp [hp, hc2]

/-- C2 witness: thread A switches to the tab with url "https://b"; thread B,
whose cached handle is its own object `wqA` for the other tab, next resolves
to its own handle `wqB` for the switched-to tab (same url, different handle
object), not to its previously cached handle. -/
theorem claim_C2_witness :
    (set_page wpB "" 0 wsA).2.1 = "https://b" ∧
    (get_page ((set_page wpB "" 0 wsA).2.1) wsB).1 = some wqB ∧
    some wqB ≠ wsB.page := by
  have h := claim_C2 wpB "" 0 wsA wsB (by decide) (by decide) (by decide)
    (by decide) (by decide) (by decide)
  refine ⟨h.1, h.2.trans (by decide), by decide⟩

theorem splitCons_ne_nil (cs0 : List Char) : splitCons cs0 ≠ [] := by
  unfold splitCons
  split
  · simp
  · split <;> simp

theorem dropWhile_head_not (p : Char → Bool) :
    ∀ (l : List Char), l.dropWhile p ≠ [] → p ((l.dropWhile p).headD 'a') = false := by
  intro l
  induction l with
  | nil => intro h; simp at h
  | cons c t ih =>
    intro h
    rw [List.dropWhile_cons] at h ⊢
    by_cases hc : p c = true
    · rw [if_pos hc] at h ⊢
      exact ih h
    · rw [if_neg hc] at h ⊢
      simpa using Bool.eq_false_iff.mpr hc

theorem dropWhile_append_last (p : Char → Bool) (a : Char) (ha : p a = false) :
    ∀ (xs : List Char), (xs ++ [a]).dropWhile p = xs.dropWhile p ++ [a] := by
  intro xs
  induction xs with
  | nil => simp [List.dropWhile_cons, ha]
  | cons x t ih =>
    by_cases hx : p x = true
    · simp [List.dropWhile_cons, hx, ih]
    · simp [List.dropWhile_cons, hx]

/-- A non-empty stripped character list starts with a non-whitespace
character. -/
theorem stripChars_head (cs : List Char) (h : stripChars cs ≠ []) :
    ∃ a t, stripChars cs = a :: t ∧ isSpace a = false := by
  unfold stripChars at h ⊢
  cases hd : cs.dropWhile isSpace with
  | nil => rw [hd] at h; simp at h
  | cons a t =>
    have ha : isSpace a = false := by
      have h2 := dropWhile_head_not isSpace cs (by rw [hd]; simp)
      rw [hd] at h2
      simpa using h2
    refine ⟨a, (t.reverse.dropWhile isSpace).reverse, ?_, ha⟩
    rw [List.reverse_cons, dropWhile_append_last isSpace a ha,
      List.reverse_append]
    simp

/-- Splitting a non-blank stripped line yields at least one part. -/
theorem pySplitMax2_pyStrip_ne (raw : String) (hne : pyStrip raw ≠ "") :
    pySplitMax2 (pyStrip raw) ≠ [] := by
  have hne2 : stripChars raw.data ≠ [] := by
    intro h0
    exact hne (show pyStrip raw = "" by unfold pyStrip; rw [h0])
  obtain ⟨a, t, hat, ha⟩ := stripChars_head raw.data hne2
  have hcs0 : (pyStrip raw).data.dropWhile isSpace = a :: t := by
    rw [show (pyStrip raw).data = stripChars raw.data from rfl, hat,
      List.dropWhile_cons, if_neg (by simp [ha])]
  have heq : pySplitMax2 (pyStrip raw) = splitCons (a :: t) := by
    unfold pySplitMax2
    rw [hcs0]
  rw [heq]
  exact splitCons_ne_nil (a :: t)

/-- Every line the dispatcher iterates over produces exactly one status. -/
theorem execLine_some (env : BatchEnv) (l : String) (h : pySplitMax2 l ≠ []) :
    execLine env l = some (execLineStr env l) := by
  unfold execLineStr execLine
  cases hs : pySplitMax2 l with
  | nil => exact absurd hs h
  | cons p0 rest => simp [execParts]

theorem parsedLines_split_ne (actions l : String) (hl : l ∈ parsedLines actions) :
    pySplitMax2 l ≠ [] := by
  unfold parsedLines at hl
  rw [List.mem_filter] at hl
  obtain ⟨hmem, hne⟩ := hl
  rw [List.mem_map] at hmem
  obtain ⟨raw, _, rfl⟩ := hmem
  exact pySplitMax2_pyStrip_ne raw (by simpa using hne)

theorem filterMap_execLine_eq_map (env : BatchEnv) (ls : List String)
    (h : ∀ l ∈ ls, pySplitMax2 l ≠ []) :
    ls.filterMap (execLine env) = ls.map (execLineStr env) := by
  induction ls with
  | nil => rfl
  | cons a t ih =>
    rw [List.filterMap_cons, List.map_cons,
      execLine_some env a (h a (by simp)),
      ih (fun l hl => h l (by simp [hl]))]

/-- An unrecognised command falls to the final `else` of the dispatcher. -/
theorem lineBody_unknown (env : BatchEnv) (p0 : String) (rest : List String)
    (line : String) (hrec : recognizedParts (p0 :: rest) = false) :
    lineBody env (strLower p0) (p0 :: rest) line =
      .ok ("? unknown/invalid: " ++ line) := by
  unfold recognizedParts at hrec
  simp only [List.getD_cons_zero, Bool.or_eq_false_iff] at hrec
  obtain ⟨⟨⟨⟨⟨⟨h1, h2⟩, h3⟩, h4⟩, h5⟩, h6⟩, h7⟩ := hrec
  unfold lineBody
  simp only [h1, h2, h3, h4, h5, h6, h7, Bool.false_eq_true, if_false]
  rfl

theorem execLineStr_of_parts (env : BatchEnv) (line p0 : String)
    (rest : List String) (hs : pySplitMax2 line = p0 :: rest) :
    execLineStr env line =
      catchLine (strLower p0) (lineBody env (strLower p0) (p0 :: rest) line) := by
  unfold execLineStr execLine
  rw [hs]
  rfl

/-- C3: the batch executes its non-blank lines strictly in order, producing
exactly one status string per line (the result list is the image of the line
list under the per-line evaluator, so what one line reports depends only on
that line: an exception raised by one command is reported in that line only
and every later line still runs); an unrecognised command yields an explicit
"unknown/invalid" status, and a raised exception is formatted into the
per-line error status. -/
theorem claim_C3 (env : BatchEnv) (actions : String) :
    execute_action_sequence env actions =
      (parsedLines actions).map (execLineStr env) ∧
    (∀ line p0 rest, pySplitMax2 line = p0 :: rest →
      recognizedParts (p0 :: rest) = false →
      execLineStr env line = "? unknown/invalid: " ++ line) ∧
    (∀ line p0 rest e, pySplitMax2 line = p0 :: rest →
      lineBody env (strLower p0) (p0 :: rest) line = .error e →
      execLineStr env line = "✗ " ++ strLower p0 ++ " error: " ++ e) := by
  refine ⟨?_, ?_, ?_⟩
  · unfold execute_action_sequence
    exact filterMap_execLine_eq_map env (parsedLines actions)
      (fun l hl => parsedLines_split_ne actions l hl)
  · intro line p0 rest hs hrec
    rw [execLineStr_of_parts env line p0 rest hs,
      lineBody_unknown env p0 rest line hrec]
    rfl
  · intro line p0 rest e hs he
    rw [execLineStr_of_parts env line p0 rest hs, he]
    rfl

/-- C3 witness: in the five-line batch whose third line clicks the
non-existent `ref_999`, lines 1, 2, 4 and 5 still run and only line 3
reports a failure. -/
theorem claim_C3_witness :
    execute_action_sequence envW batchW =
      ["OK: Clicked ref_1", "OK: Set ref_2 to AI intern",
       "✗ click error: Element not found", "OK: press Enter", "OK: wait 3s"] ∧
    execute_action_sequence envW batchW =
      (parsedLines batchW).map (execLineStr envW) ∧
    execLineStr envW "frobnicate x" = "? unknown/invalid: frobnicate x" := by
  refine ⟨by decide, (claim_C3 envW batchW).1, ?_⟩
  exact (claim_C3 envW batchW).2.1 "frobnicate x" "frobnicate" ["x"] (by decide)
    (by decide)

/-- C7 counterexample: `wait_seconds` rejects a 60-second wait, but the batch
command `wait 60` succeeds — under an environment whose `sleep` fails for any
duration above 10 seconds, so the successful status also certifies that the
batch slept `min(60, 10)` seconds instead of rejecting the duration. -/
theorem claim_C7_counterexample :
    wait_seconds 60 = (none, "Duration must be 0-30 seconds") ∧
    execLine envW "wait 60" = some "OK: wait 60s" := by
  exact ⟨by norm_num [wait_seconds], by decide⟩

/-- C7 (amended): `wait_seconds` returns an error result instead of sleeping
for any duration below 0 or above 30; the batch `wait` command does not
apply this 0-30 rejection: for any parsed duration it sleeps
`min(duration, 10)` seconds and reports an OK status for the requested
duration (so durations above 30 are accepted with the sleep capped at 10
seconds). -/
theorem claim_C7 :
    (∀ d : ℚ, d < 0 ∨ d > 30 →
      wait_seconds d = (none, "Duration must be 0-30 seconds")) ∧
    (∀ d : ℚ, 0 ≤ d → d ≤ 30 →
      wait_seconds d = (some d, "Waited " ++ toString d ++ "s")) ∧
    (∀ d : ℚ, batchWaitSleep d = min d 10) ∧
    (∀ (env : BatchEnv) (line t : String) (rest : List String) (d : ℚ),
      pySplitMax2 line = "wait" :: t :: rest →
      env.parseFloat t = .ok d →
      execLine env line =
        some (match env.sleep (batchWaitSleep d) with
              | .ok _ => "OK: wait " ++ toString d ++ "s"
              | .error e => "✗ " ++ "wait" ++ " error: " ++ e)) := by
  refine ⟨?_, ?_, fun _ => rfl, ?_⟩
  · intro d hd
    unfold wait_seconds
    rw [if_pos hd]
  · intro d h0 h30
    unfold wait_seconds
    rw [if_neg (by push_neg; exact ⟨h0, h30⟩)]
  · intro env line t rest d hs hpf
    unfold execLine
    rw [hs]
    have hbody : lineBody env (strLower "wait") ("wait" :: t :: rest) line =
        (do
          let seconds ← env.parseFloat t
          let _ ← env.sleep (batchWaitSleep seconds)
          pure ("OK: wait " ++ toString seconds ++ "s")) := by
      have hlen2 : decide (("wait" :: t :: rest).length ≥ 2) = true :=
        decide_eq_true (by simp)
      unfold lineBody
      simp only [show (strLower "wait" == "click") = false from rfl,
        show (strLower "wait" == "fill") = false from rfl,
        show (strLower "wait" == "input") = false from rfl,
        show (strLower "wait" == "set") = false from rfl,
        show (strLower "wait" == "type") = false from rfl,
        show (strLower "wait" == "press") = false from rfl,
        show (strLower "wait" == "wait") = true from rfl,
        hlen2, Bool.false_and, Bool.false_or, Bool.or_self, Bool.true_and,
        Bool.and_true, Bool.false_eq_true, if_false]
      simp only [List.getD_cons_succ, List.getD_cons_zero, if_true]
    have step : execParts env line ("wait" :: t :: rest) =
        some (catchLine (strLower "wait")
          (lineBody env (strLower "wait") ("wait" :: t :: rest) line)) := rfl
    rw [step, hbody, hpf]
    have hw : strLower "wait" = "wait" := by decide
    rw [hw]
    cases hsl : env.sleep (batchWaitSleep d) with
    | ok u =>
      show some (catchLine "wait"
        ((env.sleep (batchWaitSleep d)).bind fun _ =>
          pure ("OK: wait " ++ toString d ++ "s"))) = _
      rw [hsl]
      rfl
    | error e =>
      show some (catchLine "wait"
        ((env.sleep (batchWaitSleep d)).bind fun _ =>
          pure ("OK: wait " ++ toString d ++ "s"))) = _
      rw [hsl]
      rfl

/-- C7 witness: 31 seconds is rejected by `wait_seconds`, 5 seconds is
slept; the batch accepts `wait 60` and reports success. -/
theorem claim_C7_witness :
    wait_seconds 31 = (none, "Duration must be 0-30 seconds") ∧
    wait_seconds 5 = (some 5, "Waited 5s") ∧
    execLine envW "wait 60" =
      some (match envW.sleep (batchWaitSleep 60) with
            | .ok _ => "OK: wait " ++ toString (60 : ℚ) ++ "s"
            | .error e => "✗ " ++ "wait" ++ " error: " ++ e) := by
  refine ⟨claim_C7.1 31 (by norm_num), ?_, ?_⟩
  · exact (claim_C7.2.1 5 (by norm_num) (by norm_num)).trans (by decide)
  · exact claim_C7.2.2.2 envW "wait 60" "60" [] 60 (by decide) rfl

theorem splitNL_ne_nil : ∀ (cs : List Char), splitNL cs ≠ [] := by
  intro cs
  cases cs with
  | nil => simp [splitNL]
  | cons c cs2 =>
    unfold splitNL
    cases h : splitNL cs2 with
    | nil => simp
    | cons l ls => by_cases hc : c = '\n' <;> simp [hc]

theorem splitNL_no_nl : ∀ (l : List Char), '\n' ∉ l → splitNL l = [l] := by
  intro l
  induction l with
  | nil => intro _; rfl
  | cons c cs ih =>
    intro h
    have hc : ¬(c = '\n') := by
      intro e
      exact h (by rw [e]; exact List.mem_cons_self '\n' cs)
    have hcs : '\n' ∉ cs := fun m => h (List.mem_cons_of_mem c m)
    unfold splitNL
    rw [ih hcs]
    simp [hc]

theorem splitNL_append (l : List Char) (hl : '\n' ∉ l) (cs : List Char) :
    splitNL (l ++ cs) =
      (l ++ (splitNL cs).headD []) :: (splitNL cs).tail := by
  revert hl
  induction l with
  | nil =>
    intro _
    cases h : splitNL cs with
    | nil => exact absurd h (splitNL_ne_nil cs)
    | cons a as => simp [h]
  | cons c t ih =>
    intro hl
    have hc : ¬(c = '\n') := by
      intro e
      exact hl (by rw [e]; exact List.mem_cons_self '\n' t)
    have ht : '\n' ∉ t := fun m => hl (List.mem_cons_of_mem c m)
    rw [List.cons_append]
    simp only [splitNL]
    rw [ih ht]
    simp [hc]

theorem splitNL_joinNL : ∀ (ls : List (List Char)), ls ≠ [] →
    (∀ l ∈ ls, '\n' ∉ l) → splitNL (joinNL ls) = ls := by
  intro ls
  induction ls with
  | nil => intro h; exact absurd rfl h
  | cons l ls2 ih =>
    intro _ hnl
    cases ls2 with
    | nil => exact splitNL_no_nl l (hnl l (by simp))
    | cons l2 ls3 =>
      show splitNL (l ++ '\n' :: joinNL (l2 :: ls3)) = l :: l2 :: ls3
      rw [splitNL_append l (hnl l (by simp)) ('\n' :: joinNL (l2 :: ls3))]
      have h2 : splitNL ('\n' :: joinNL (l2 :: ls3)) =
          [] :: splitNL (joinNL (l2 :: ls3)) := by
        simp only [splitNL]
        cases h : splitNL (joinNL (l2 :: ls3)) with
        | nil => simp
        | cons a as => simp
      rw [h2, ih (by simp) (fun x hx => hnl x (by simp [hx]))]
      simp

/-- Round trip: splitting the joined output recovers exactly the line list
when no line embeds a newline. -/
theorem pySplitLines_joinLines (lines : List String) (h0 : lines ≠ [])
    (h1 : ∀ l ∈ lines, '\n' ∉ l.data) :
    pySplitLines (joinLines lines) = lines := by
  unfold pySplitLines joinLines
  rw [splitNL_joinNL (lines.map String.data) (by simpa using h0)
    (by
      intro l hl
      rw [List.mem_map] at hl
      obtain ⟨s, hs, rfl⟩ := hl
      exact h1 s hs)]
  rw [List.map_map]
  have hid : ((fun cs => (⟨cs⟩ : String)) ∘ String.data) = id := by
    funext s
    rfl
  rw [hid, List.map_id]

/-- The scan loop mints one ref, one output line and one map entry per
non-skipped element, with the ref numbers continuing the page counter as the
consecutive range `c+1, ..., c+k`. -/
theorem scanStep_spec (vw vh : Int) : ∀ (els : List ScanEl) (c : Nat),
    (scanStep vw vh c els).1 = c + scanCount vw vh els ∧
    (scanStep vw vh c els).2.1.length = scanCount vw vh els ∧
    (scanStep vw vh c els).2.2.map Prod.fst =
      List.range' (c + 1) (scanCount vw vh els) ∧
    (scanStep vw vh c els).2.2.length = scanCount vw vh els := by
  intro els
  induction els with
  | nil => intro c; simp [scanStep, scanCount]
  | cons el rest ih =>
    intro c
    by_cases hskip : scanSkip vw vh el = true
    · have hcnt : scanCount vw vh (el :: rest) = scanCount vw vh rest := by
        unfold scanCount
        rw [List.filter_cons]
        simp [hskip]
      rw [show scanStep vw vh c (el :: rest) = scanStep vw vh c rest from by
        simp only [scanStep]; rw [if_pos hskip]]
      rw [hcnt]
      exact ih c
    · have hb : scanSkip vw vh el = false := Bool.eq_false_iff.mpr hskip
      have hcnt : scanCount vw vh (el :: rest) = scanCount vw vh rest + 1 := by
        unfold scanCount
        rw [List.filter_cons]
        simp [hb]
      have hstep : scanStep vw vh c (el :: rest) =
          ((scanStep vw vh (c + 1) rest).1,
           scanLine (c + 1) el :: (scanStep vw vh (c + 1) rest).2.1,
           (c + 1, jsEntryOf el) :: (scanStep vw vh (c + 1) rest).2.2) := by
        simp only [scanStep]
        rw [if_neg (by simp [hb])]
      obtain ⟨ih1, ih2, ih3, ih4⟩ := ih (c + 1)
      rw [hstep, hcnt]
      refine ⟨?_, ?_, ?_, ?_⟩
      · simp only [ih1]
        omega
      · simp [ih2]
      · simp only [List.map_cons, ih3]
        rw [List.range'_succ]
      · simp [ih4]

theorem lookup_isSome_of_key {β : Type} (l : List (Nat × β)) (k : Nat)
    (h : k ∈ l.map Prod.fst) : (l.lookup k).isSome := by
  induction l with
  | nil => simp at h
  | cons kv t ih =>
    obtain ⟨k1, v1⟩ := kv
    rw [List.map_cons, List.mem_cons] at h
    by_cases hk : (k == k1) = true
    · simp [List.lookup, hk]
    · have hmem : k ∈ t.map Prod.fst := by
        rcases h with h | h
        · exact absurd (by simp [h]) hk
        · exact h
      simpa [List.lookup, hk] using ih hmem

/-- C6: when the scan finds more than 50 elements, the text handed back is
the heading, the first 50 entry lines and a remainder count, while
`ELEMENT_MAP` keeps one entry per scanned element regardless of the cap, so
a later lookup succeeds for every minted ref, including those beyond the
first 50.  (The hypothesis `hnl` states that no rendered line embeds a
newline, so the line count the cap works with is the element count.) -/
theorem claim_C6 (vw vh : Int) (c : Nat) (els : List ScanEl)
    (hnl : ∀ l ∈ (scanStep vw vh c els).2.1, '\n' ∉ l.data)
    (hbig : 50 < scanCount vw vh els) :
    (get_page_elements vw vh c els).2.2.length = scanCount vw vh els ∧
    (get_page_elements vw vh c els).2.1 =
      joinLines (("Found " ++ toString (scanCount vw vh els) ++
          " interactive elements. Showing top 50:")
        :: (scanStep vw vh c els).2.1.take 50
        ++ ["... and " ++ toString (scanCount vw vh els - 50) ++
              " more elements (buttons, links, inputs).",
            "TIP: Use execute_javascript to find specific elements not listed here."]) ∧
    (∀ k ∈ (scanStep vw vh c els).2.2.map Prod.fst,
      (((get_page_elements vw vh c els).2.2).lookup k).isSome) := by
  obtain ⟨hc1, hlines, hkeys, hmaplen⟩ := scanStep_spec vw vh els c
  have hne : (scanStep vw vh c els).2.1 ≠ [] := by
    intro h
    rw [h] at hlines
    simp at hlines
    omega
  have hsplit : pySplitLines (joinLines (scanStep vw vh c els).2.1) =
      (scanStep vw vh c els).2.1 :=
    pySplitLines_joinLines _ hne hnl
  unfold get_page_elements
  dsimp only
  rw [hsplit, hlines]
  rw [if_pos hbig]
  refine ⟨?_, rfl, ?_⟩
  · rw [List.length_map]
    exact hmaplen
  · intro k hk
    apply lookup_isSome_of_key
    rw [List.map_map]
    have : (Prod.fst ∘ fun kv : Nat × JsEntry => (kv.1, pyEntryOf kv.2)) =
        Prod.fst := by
      funext kv
      rfl
    rw [this]
    exact hk
/-- C6 witness: 51 scanned buttons exceed the cap; the map keeps all 51
entries and every minted ref remains resolvable. -/
theorem claim_C6_witness :
    (50 < scanCount 1200 800 c6els ∧ scanCount 1200 800 c6els = 51) ∧
    ((get_page_elements 1200 800 0 c6els).2.2.length = scanCount 1200 800 c6els ∧
     (get_page_elements 1200 800 0 c6els).2.1 =
       joinLines (("Found " ++ toString (scanCount 1200 800 c6els) ++
           " interactive elements. Showing top 50:")
         :: (scanStep 1200 800 0 c6els).2.1.take 50
         ++ ["... and " ++ toString (scanCount 1200 800 c6els - 50) ++
               " more elements (buttons, links, inputs).",
             "TIP: Use execute_javascript to find specific elements not listed here."]) ∧
     (∀ k ∈ (scanStep 1200 800 0 c6els).2.2.map Prod.fst,
       (((get_page_elements 1200 800 0 c6els).2.2).lookup k).isSome)) :=
  ⟨⟨by decide, by decide⟩, claim_C6 1200 800 0 c6els (by decide) (by decide)⟩

/-! ### Injectivity of the decimal ref tokens -/

theorem toDigitsCore_eq_digits (b : Nat) (hb : 1 < b) :
    ∀ (fuel n : Nat) (ds : List Char), 0 < n → n < fuel →
      Nat.toDigitsCore b fuel n ds =
        ((Nat.digits b n).map Nat.digitChar).reverse ++ ds := by
  intro fuel
  induction fuel with
  | zero => intro n ds h0 hlt; omega
  | succ f ih =>
    intro n ds h0 hlt
    simp only [Nat.toDigitsCore]
    by_cases hq : n / b = 0
    · simp only [hq, if_pos rfl]
      rw [Nat.digits_def' hb h0, hq, Nat.digits_zero]
      simp
    · rw [if_neg hq]
      have h0q : 0 < n / b := Nat.pos_of_ne_zero hq
      have hlt2 : n / b < f := by
        have := Nat.div_lt_self h0 hb
        omega
      rw [ih (n / b) (Nat.digitChar (n % b) :: ds) h0q hlt2]
      rw [Nat.digits_def' hb h0]
      simp

theorem toDigits_eq_digits (n : Nat) (h0 : 0 < n) :
    Nat.toDigits 10 n = ((Nat.digits 10 n).map Nat.digitChar).reverse := by
  unfold Nat.toDigits
  rw [toDigitsCore_eq_digits 10 (by norm_num) (n + 1) n [] h0 (by omega)]
  simp

theorem digitChar_inj10 (d1 d2 : Nat) (h1 : d1 < 10) (h2 : d2 < 10)
    (he : Nat.digitChar d1 = Nat.digitChar d2) : d1 = d2 := by
  interval_cases d1 <;> interval_cases d2 <;> simp_all [Nat.digitChar]

theorem map_digitChar_inj : ∀ (l1 l2 : List Nat), (∀ d ∈ l1, d < 10) →
    (∀ d ∈ l2, d < 10) →
    l1.map Nat.digitChar = l2.map Nat.digitChar → l1 = l2 := by
  intro l1
  induction l1 with
  | nil => intro l2 _ _ he; cases l2 <;> simp_all
  | cons d t ih =>
    intro l2 hb1 hb2 he
    cases l2 with
    | nil => simp at he
    | cons d2 t2 =>
      simp only [List.map_cons, List.cons.injEq] at he
      have hd : d = d2 :=
        digitChar_inj10 d d2 (hb1 d (by simp)) (hb2 d2 (by simp)) he.1
      rw [hd, ih t2 (fun x hx => hb1 x (by simp [hx]))
        (fun x hx => hb2 x (by simp [hx])) he.2]

theorem natRepr_injective : Function.Injective Nat.repr := by
  intro m n h
  unfold Nat.repr at h
  have hdata : Nat.toDigits 10 m = Nat.toDigits 10 n := by
    have := congrArg String.data h
    simpa [List.asString] using this
  by_cases hm : m = 0 <;> by_cases hn : n = 0
  · rw [hm, hn]
  · exfalso
    rw [hm] at hdata
    have h1 : Nat.toDigits 10 0 = ['0'] := rfl
    rw [h1, toDigits_eq_digits n (Nat.pos_of_ne_zero hn)] at hdata
    have : (Nat.digits 10 n).map Nat.digitChar = ['0'] := by
      have := congrArg List.reverse hdata
      simpa using this.symm
    cases hd : Nat.digits 10 n with
    | nil => rw [hd] at this; simp at this
    | cons a t =>
      rw [hd] at this
      cases t with
      | cons b2 t2 => simp at this
      | nil =>
        simp at this
        have ha : a = 0 := by
          have hlt : a < 10 := Nat.digits_lt_base (by norm_num) (by rw [hd]; simp)
          have := digitChar_inj10 a 0 hlt (by norm_num) (by simpa using this)
          exact this
        apply hn
        have hcongr := congrArg (Nat.ofDigits 10) hd
        rw [Nat.ofDigits_digits] at hcongr
        subst ha
        simpa [Nat.ofDigits] using hcongr
  · exfalso
    rw [hn] at hdata
    have h1 : Nat.toDigits 10 0 = ['0'] := rfl
    rw [h1, toDigits_eq_digits m (Nat.pos_of_ne_zero hm)] at hdata
    have : (Nat.digits 10 m).map Nat.digitChar = ['0'] := by
      have := congrArg List.reverse hdata
      simpa using this
    cases hd : Nat.digits 10 m with
    | nil => rw [hd] at this; simp at this
    | cons a t =>
      rw [hd] at this
      cases t with
      | cons b2 t2 => simp at this
      | nil =>
        simp at this
        have ha : a = 0 := by
          have hlt : a < 10 := Nat.digits_lt_base (by norm_num) (by rw [hd]; simp)
          exact digitChar_inj10 a 0 hlt (by norm_num) (by simpa using this)
        apply hm
        have hcongr := congrArg (Nat.ofDigits 10) hd
        rw [Nat.ofDigits_digits] at hcongr
        subst ha
        simpa [Nat.ofDigits] using hcongr
  · rw [toDigits_eq_digits m (Nat.pos_of_ne_zero hm),
      toDigits_eq_digits n (Nat.pos_of_ne_zero hn)] at hdata
    have hrev := congrArg List.reverse hdata
    simp only [List.reverse_reverse] at hrev
    have hdig := map_digitChar_inj (Nat.digits 10 m) (Nat.digits 10 n)
      (fun d hd => Nat.digits_lt_base (by norm_num) hd)
      (fun d hd => Nat.digits_lt_base (by norm_num) hd) hrev
    have := congrArg (Nat.ofDigits 10) hdig
    simpa [Nat.ofDigits_digits] using this

theorem string_data_inj {s t : String} (h : s.data = t.data) : s = t := by
  cases s
  cases t
  exact congrArg String.mk h

theorem refToken_injective : Function.Injective refToken := by
  intro a b h
  unfold refToken at h
  have hdata := congrArg String.data h
  simp only [String.data_append] at hdata
  have h2 : (toString a : String).data = (toString b : String).data :=
    List.append_cancel_left hdata
  have h3 : (toString a : String) = toString b := string_data_inj h2
  exact natRepr_injective h3

/-- Popup minting walks the qualifying overlay descendants in order,
continuing the page counter with consecutive fresh numbers. -/
theorem mintEls_spec : ∀ (els : List OverlayEl) (c : Nat),
    (mintEls c els).1 = c + mintElsCount els ∧
    (mintEls c els).2.map PopupEntry.ref =
      List.range' (c + 1) (mintElsCount els) ∧
    (mintEls c els).2.length = mintElsCount els := by
  intro els
  induction els with
  | nil => intro c; simp [mintEls, mintElsCount]
  | cons el rest ih =>
    intro c
    by_cases hq : qualifiesOverlayEl el = true
    · have hcnt : mintElsCount (el :: rest) = mintElsCount rest + 1 := by
        unfold mintElsCount
        rw [List.filter_cons]
        simp [hq]
      have hstep : mintEls c (el :: rest) =
          ((mintEls (c + 1) rest).1,
           popupEntryOf (c + 1) el :: (mintEls (c + 1) rest).2) := by
        simp only [mintEls]
        rw [if_pos hq]
      obtain ⟨ih1, ih2, ih3⟩ := ih (c + 1)
      rw [hstep, hcnt]
      refine ⟨by simp only [ih1]; omega, ?_, by simp [ih3]⟩
      simp only [List.map_cons, ih2]
      rw [List.range'_succ]
      rfl
    · have hnq : qualifiesOverlayEl el = false := Bool.eq_false_iff.mpr hq
      have hcnt : mintElsCount (el :: rest) = mintElsCount rest := by
        unfold mintElsCount
        rw [List.filter_cons]
        simp [hnq]
      rw [show mintEls c (el :: rest) = mintEls c rest from by
        simp only [mintEls]; rw [if_neg (by simp [hnq])]]
      rw [hcnt]
      exact ih c

theorem mintOverlays_spec : ∀ (os : List Overlay) (c : Nat),
    (mintOverlays c os).1 = c + mintOverlaysCount os ∧
    (mintOverlays c os).2.map PopupEntry.ref =
      List.range' (c + 1) (mintOverlaysCount os) ∧
    (mintOverlays c os).2.length = mintOverlaysCount os := by
  intro os
  induction os with
  | nil => intro c; simp [mintOverlays, mintOverlaysCount]
  | cons o os2 ih =>
    intro c
    obtain ⟨e1, e2, e3⟩ := mintEls_spec o.els c
    obtain ⟨i1, i2, i3⟩ := ih (mintEls c o.els).1
    have hcnt : mintOverlaysCount (o :: os2) =
        mintElsCount o.els + mintOverlaysCount os2 := by
      unfold mintOverlaysCount
      simp
    refine ⟨?_, ?_, ?_⟩
    · simp only [mintOverlays]
      rw [i1, e1, hcnt]
      omega
    · simp only [mintOverlays]
      rw [List.map_append, e2, i2, e1, hcnt]
      have hra := List.range'_append (c + 1) (mintElsCount o.els)
        (mintOverlaysCount os2) 1
      simp only [one_mul] at hra
      rw [show c + mintElsCount o.els + 1 = c + 1 + mintElsCount o.els from by
        omega]
      rw [hra, Nat.add_comm (mintOverlaysCount os2) (mintElsCount o.els)]
    · simp only [mintOverlays]
      rw [List.length_append, e3, i3, hcnt]

/-- C5 (amended): refs minted by a `get_page_elements` full scan and by the
overlay enumeration after a click both come from the page-persistent
monotonically increasing `window.__refCounter`, so a page lifetime starting
at counter 0 assigns the full scan the consecutive tokens `ref_1..ref_k`;
a click that raises the visible-overlay count from 0 to 1 by opening a
dialog with 3 qualifying interactive children reports an overlay delta of +1
and exactly 3 newly minted refs, numbered consecutively after the scan and
with tokens disjoint from every token of the prior scan.  (The legacy
`accessibility_scanner.scan_page_elements` is the exception recorded in the
counterexample: its counter restarts on every call.) -/
theorem claim_C5 (vw vh : Int) (els : List ScanEl) (before after : List Overlay)
    (d : Overlay) (e1 e2 e3 : OverlayEl)
    (hbefore : before.filter (fun o => o.visible) = [])
    (hafter : after.filter (fun o => o.visible) = [d])
    (hels : d.els = [e1, e2, e3])
    (hq1 : qualifiesOverlayEl e1 = true)
    (hq2 : qualifiesOverlayEl e2 = true)
    (hq3 : qualifiesOverlayEl e3 = true) :
    (scanStep vw vh 0 els).2.2.map Prod.fst =
      List.range' 1 (scanCount vw vh els) ∧
    (scanStep vw vh 0 els).1 = scanCount vw vh els ∧
    clickOverlayDiff before after = 1 ∧
    (popupEnumerate ((scanStep vw vh 0 els).1) after).2.map PopupEntry.ref =
      [(scanStep vw vh 0 els).1 + 1, (scanStep vw vh 0 els).1 + 2,
       (scanStep vw vh 0 els).1 + 3] ∧
    (popupEnumerate ((scanStep vw vh 0 els).1) after).2.length = 3 ∧
    (∀ r ∈ (scanStep vw vh 0 els).2.2.map Prod.fst,
      ∀ r2 ∈ (popupEnumerate ((scanStep vw vh 0 els).1) after).2.map
          PopupEntry.ref,
        refToken r ≠ refToken r2) := by
  obtain ⟨hs1, hs2, hs3, hs4⟩ := scanStep_spec vw vh els 0
  have hks : (scanStep vw vh 0 els).2.2.map Prod.fst =
      List.range' 1 (scanCount vw vh els) := by
    simpa using hs3
  have hc1 : (scanStep vw vh 0 els).1 = scanCount vw vh els := by
    simpa using hs1
  have hdiff : clickOverlayDiff before after = 1 := by
    unfold clickOverlayDiff overlayCountOf
    rw [hbefore, hafter]
    simp
  have hpop : (popupEnumerate ((scanStep vw vh 0 els).1) after).2 =
      [popupEntryOf ((scanStep vw vh 0 els).1 + 1) e1,
       popupEntryOf ((scanStep vw vh 0 els).1 + 2) e2,
       popupEntryOf ((scanStep vw vh 0 els).1 + 3) e3] := by
    unfold popupEnumerate
    rw [hafter]
    simp [mintOverlays, mintEls, hels, hq1, hq2, hq3]
  refine ⟨hks, hc1, hdiff, ?_, ?_, ?_⟩
  · rw [hpop]
    rfl
  · rw [hpop]
    rfl
  · intro r hr r2 hr2
    rw [hks] at hr
    rw [hpop] at hr2
    rw [List.mem_range'_1] at hr
    have hrle : r ≤ scanCount vw vh els := by omega
    have hr2gt : (scanStep vw vh 0 els).1 < r2 := by
      simp only [List.map_cons, List.map_nil, List.mem_cons,
        List.not_mem_nil, or_false] at hr2
      rcases hr2 with h | h | h <;> rw [h] <;> simp [popupEntryOf]
    intro heq
    have := refToken_injective heq
    rw [hc1] at hr2gt
    omega

/-- C5 witness: a one-element scan mints `ref_1`; the click then opens the
three-button dialog and mints exactly `ref_2, ref_3, ref_4`. -/
theorem claim_C5_witness :
    ((scanStep 1200 800 0 [scanElA]).2.2.map Prod.fst =
        List.range' 1 (scanCount 1200 800 [scanElA]) ∧
      (scanStep 1200 800 0 [scanElA]).1 = scanCount 1200 800 [scanElA] ∧
      clickOverlayDiff [] [dlgW] = 1 ∧
      (popupEnumerate ((scanStep 1200 800 0 [scanElA]).1) [dlgW]).2.map
          PopupEntry.ref =
        [(scanStep 1200 800 0 [scanElA]).1 + 1,
         (scanStep 1200 800 0 [scanElA]).1 + 2,
         (scanStep 1200 800 0 [scanElA]).1 + 3] ∧
      (popupEnumerate ((scanStep 1200 800 0 [scanElA]).1) [dlgW]).2.length = 3 ∧
      (∀ r ∈ (scanStep 1200 800 0 [scanElA]).2.2.map Prod.fst,
        ∀ r2 ∈ (popupEnumerate ((scanStep 1200 800 0 [scanElA]).1)
            [dlgW]).2.map PopupEntry.ref,
          refToken r ≠ refToken r2)) ∧
    scanCount 1200 800 [scanElA] = 1 ∧
    (popupEnumerate 1 [dlgW]).2.map PopupEntry.ref = [2, 3, 4] :=
  ⟨claim_C5 1200 800 [scanElA] [] [dlgW] dlgW (ovEl "Yes") (ovEl "No")
      (ovEl "Cancel") rfl (by decide) rfl (by decide) (by decide) (by decide),
    by decide, by decide⟩

/-- C5 counterexample: the legacy `scan_page_elements` of
accessibility_scanner.py reinitialises its counter on every call, so a
second full scan of the unchanged page mints element id 0 again — the id
sets of the two scans overlap instead of being disjoint. -/
theorem claim_C5_counterexample :
    (scanTwice cexBody).1 = [0] ∧ (scanTwice cexBody).2 = [0] ∧
    ¬ List.Disjoint (scanTwice cexBody).1 (scanTwice cexBody).2 :=
  ⟨by decide, by decide, by
    intro hd
    exact hd (show 0 ∈ (scanTwice cexBody).1 by decide)
      (show 0 ∈ (scanTwice cexBody).2 by decide)⟩

/-! ### C8: indentation discipline of the legacy DOM scanner -/

theorem takeWhile_tabs (n : Nat) (r : List Char) :
    (List.replicate n '\t' ++ '[' :: r).takeWhile (fun c => decide (c = '\t')) =
      List.replicate n '\t' := by
  induction n with
  | zero => simp [List.takeWhile]
  | succ k ih => simp [List.replicate, List.takeWhile, ih]

/-- Every emitted output line carries exactly `depth` leading tabs. -/
theorem tabCount_accNodeLine (n depth : Nat) (d : NodeData) :
    tabCount (accNodeLine n depth d) = depth := by
  unfold tabCount accNodeLine tabs
  simp only [String.data_append, List.append_assoc, List.singleton_append,
    List.cons_append]
  rw [takeWhile_tabs]
  exact List.length_replicate depth '\t'

/-- Short direct text never produces a continuation line. -/
theorem accTextLines_eq_nil (d : NodeData) (h : d.directText.length < 50) :
    accTextLines d = [] := by
  unfold accTextLines
  split
  · rfl
  · split
    · next hcond =>
      simp only [Bool.and_eq_true, decide_eq_true_eq] at hcond
      obtain ⟨-, h2⟩ := hcond
      omega
    · rfl

/-- C8 (amended): for an emitted node the children are rendered one level
deeper exactly when the node has more than one element child — counting all
element children, interesting or not (accessibility_scanner.py line 144);
non-emitted nodes pass their own depth through unchanged; consequently a
single-child chain of emitted nodes renders every line at the same
indentation depth.  (The claim as stated, counting only interesting
children, is refuted by `claim_C8_counterexample`.) -/
theorem claim_C8 :
    (∀ (d : NodeData) (cs : List DomNode) (anc : List NodeData)
        (depth : Nat) (st : BuildSt),
      isExcluded d anc = false → rejectedTag d = false → emitWorthy d = true →
      buildNode (.mk d cs) anc depth st =
        buildList cs (d :: anc) (if cs.length > 1 then depth + 1 else depth)
          { counter := st.counter + 1
            lines := st.lines ++ accNodeLine st.counter depth d :: accTextLines d
            map := st.map ++ [(st.counter, accEntryOf d)] }) ∧
    (∀ (d : NodeData) (cs : List DomNode) (anc : List NodeData)
        (depth : Nat) (st : BuildSt),
      isExcluded d anc = false → rejectedTag d = false → emitWorthy d = false →
      buildNode (.mk d cs) anc depth st = buildList cs (d :: anc) depth st) ∧
    (∀ (ds : List NodeData) (d : NodeData) (anc : List NodeData)
        (depth : Nat) (st : BuildSt),
      chainOK anc d ds = true →
      ∃ new : List String,
        (buildNode (chainTree d ds) anc depth st).lines = st.lines ++ new ∧
        new.length = ds.length + 1 ∧
        ∀ l ∈ new, tabCount l = depth) := by
  have hemitEq : ∀ (d : NodeData) (cs : List DomNode) (anc : List NodeData)
      (depth : Nat) (st : BuildSt),
      isExcluded d anc = false → rejectedTag d = false → emitWorthy d = true →
      buildNode (.mk d cs) anc depth st =
        buildList cs (d :: anc) (if cs.length > 1 then depth + 1 else depth)
          { counter := st.counter + 1
            lines := st.lines ++ accNodeLine st.counter depth d :: accTextLines d
            map := st.map ++ [(st.counter, accEntryOf d)] } := by
    intro d cs anc depth st hex hrej hemit
    simp only [buildNode, hex, hrej, hemit, Bool.false_eq_true, if_false,
      if_true]
  have hskipEq : ∀ (d : NodeData) (cs : List DomNode) (anc : List NodeData)
      (depth : Nat) (st : BuildSt),
      isExcluded d anc = false → rejectedTag d = false → emitWorthy d = false →
      buildNode (.mk d cs) anc depth st = buildList cs (d :: anc) depth st := by
    intro d cs anc depth st hex hrej hemit
    simp only [buildNode, hex, hrej, hemit, Bool.false_eq_true, if_false]
  refine ⟨hemitEq, hskipEq, ?_⟩
  intro ds
  induction ds with
  | nil =>
    intro d anc depth st hch
    simp only [chainOK, Bool.and_eq_true, decide_eq_true_eq] at hch
    obtain ⟨⟨⟨⟨hex, hrej⟩, hemit⟩, hshort⟩, -⟩ := hch
    have hexf : isExcluded d anc = false := by simpa using hex
    have hrejf : rejectedTag d = false := by simpa using hrej
    refine ⟨[accNodeLine st.counter depth d], ?_, rfl, ?_⟩
    · rw [show chainTree d [] = .mk d [] from rfl]
      rw [hemitEq d [] anc depth st hexf hrejf hemit]
      simp [buildList, accTextLines_eq_nil d hshort]
    · intro l hl
      rw [List.mem_singleton] at hl
      rw [hl]
      exact tabCount_accNodeLine st.counter depth d
  | cons d2 rest ih =>
    intro d anc depth st hch
    simp only [chainOK, Bool.and_eq_true, decide_eq_true_eq] at hch
    obtain ⟨⟨⟨⟨hex, hrej⟩, hemit⟩, hshort⟩, hch2⟩ := hch
    have hexf : isExcluded d anc = false := by simpa using hex
    have hrejf : rejectedTag d = false := by simpa using hrej
    obtain ⟨new, hnew1, hnew2, hnew3⟩ :=
      ih d2 (d :: anc) depth
        { counter := st.counter + 1
          lines := st.lines ++ accNodeLine st.counter depth d :: accTextLines d
          map := st.map ++ [(st.counter, accEntryOf d)] } hch2
    refine ⟨accNodeLine st.counter depth d :: new, ?_, by simp [hnew2], ?_⟩
    · rw [show chainTree d (d2 :: rest) = .mk d [chainTree d2 rest] from rfl]
      rw [hemitEq d [chainTree d2 rest] anc depth st hexf hrejf hemit]
      simp only [List.length_singleton]
      rw [if_neg (show ¬((1 : Nat) > 1) from by omega)]
      rw [show buildList [chainTree d2 rest] (d :: anc) depth
          { counter := st.counter + 1
            lines := st.lines ++ accNodeLine st.counter depth d :: accTextLines d
            map := st.map ++ [(st.counter, accEntryOf d)] } =
          buildNode (chainTree d2 rest) (d :: anc) depth
          { counter := st.counter + 1
            lines := st.lines ++ accNodeLine st.counter depth d :: accTextLines d
            map := st.map ++ [(st.counter, accEntryOf d)] } from rfl]
      rw [hnew1]
      simp [accTextLines_eq_nil d hshort]
    · intro l hl
      rcases List.mem_cons.mp hl with h | h
      · rw [h]
        exact tabCount_accNodeLine st.counter depth d
      · exact hnew3 l h

/-- C8 witness: a three-node single-child chain of emitted divs under the
body renders all three lines at the starting depth 0. -/
theorem claim_C8_witness :
    chainOK [ndBody] chA [chB, chC] = true ∧
    (∃ new : List String,
      (buildNode (chainTree chA [chB, chC]) [ndBody] 0 initBuildSt).lines =
        initBuildSt.lines ++ new ∧ new.length = 3 ∧
        ∀ l ∈ new, tabCount l = 0) ∧
    ((buildNode (chainTree chA [chB, chC]) [ndBody] 0 initBuildSt).lines.map
      tabCount = [0, 0, 0]) :=
  ⟨by decide,
   claim_C8.2.2 [chB, chC] chA [ndBody] 0 initBuildSt (by decide),
   by decide⟩

/-- C8 counterexample: `c8P` has exactly one interesting (emit-worthy)
element child, yet — because line 144 counts all element children — its
child line is rendered one tab deeper than the parent line, refuting the
claim that indentation increases only for parents with more than one
interesting child. -/
theorem claim_C8_counterexample :
    (c8P.children.filter (fun c => emitWorthy c.data)).length = 1 ∧
    (scan_page_elements c8body).1.map tabCount = [0, 1] := by
  exact ⟨by decide, by decide⟩

end JobAgent
